import Mathlib

set_option maxRecDepth 16384

/-!
Shallow embedding of the RIFT standard-library HTTP module
(`src/RIFT/src/stdlib/http.py`) and proofs about its behaviour.

Modelling conventions:
* Python `bytes` are `List Nat` with each element `< 256`.
* `time.time()` is an explicit `now : Int` argument threaded through the
  stateful operations; each stateful method returns its result together
  with the updated state.
* A Python function that may raise an uncaught exception is modelled as
  returning `Option`/a sum, `none` meaning the exception propagates.
* RIFT runtime values (dicts, strings, lists, numbers, bytes) are the
  inductive `RVal`.
-/

/-- RIFT/Python runtime values as seen by the HTTP module: `None`,
booleans, integers, float literals (kept as their lexeme, since no code
path inspects the numeric value of a float), strings, lists, dicts
(insertion-ordered association lists) and byte strings. -/
inductive RVal where
  | vNone
  | vBool (b : Bool)
  | vInt (n : Int)
  | vNumF (lexeme : String)
  | vStr (s : String)
  | vList (xs : List RVal)
  | vDict (fields : List (String × RVal))
  | vBytes (bs : List Nat)
deriving Repr

/-- Association-list lookup, first match wins (Python dict access for the
dicts built by this module, whose keys are inserted once). -/
def alookup (fields : List (String × RVal)) (k : String) : Option RVal :=
  (fields.find? (fun p => p.1 = k)).map (fun p => p.2)

/-- Python `k in d` for a dict. -/
def hasKey (fields : List (String × RVal)) (k : String) : Bool :=
  fields.any (fun p => p.1 = k)

/- ======================================================================
   SessionStore  (http.py lines 32-91)
   ====================================================================== -/

/-- One stored session: the opaque data blob and its timestamps, as built
by `SessionStore.create`. -/
structure Session where
  data : RVal
  created_at : Int
  last_accessed : Int
deriving Repr

/-- The session map `_sessions`: an insertion-ordered dictionary from
session id to session record. -/
abbrev SessionMap := List (String × Session)

/-- Dict lookup on the session map. -/
def SessionMap.lookup (m : SessionMap) (sid : String) : Option Session :=
  (List.find? (fun p => p.1 = sid) m).map (fun p => p.2)

/-- Python `del self._sessions[session_id]`. -/
def SessionMap.erase (m : SessionMap) (sid : String) : SessionMap :=
  List.filter (fun p => ¬ p.1 = sid) m

/-- In-place update of the record stored under `sid`. -/
def SessionMap.update (m : SessionMap) (sid : String) (s : Session) :
    SessionMap :=
  List.map (fun p => if p.1 = sid then (sid, s) else p) m

/-- `SessionStore.create`: store the blob under the freshly generated id
with both timestamps set to the current time.  The random id is an
explicit argument here; its generation (secrets.token_urlsafe) is opaque. -/
def SessionStore.create (m : SessionMap) (sid : String) (data : RVal)
    (now : Int) : SessionMap :=
  m ++ [(sid, { data := data, created_at := now, last_accessed := now })]

/-- `SessionStore.get` (http.py lines 51-65): absent if the id is unknown;
if the idle time exceeds `ttl`, delete the entry and report absent;
otherwise refresh `last_accessed` and return the data. -/
def SessionStore.get (ttl : Int) (m : SessionMap) (sid : String)
    (now : Int) : Option RVal × SessionMap :=
  match m.lookup sid with
  | none => (none, m)
  | some s =>
    if now - s.last_accessed > ttl then
      (none, m.erase sid)
    else
      (some s.data, m.update sid { s with last_accessed := now })

/-- `SessionStore.set` (http.py lines 67-74): false if the id is unknown;
otherwise replace the data, refresh `last_accessed`, and return true.
No TTL check is performed. -/
def SessionStore.set (m : SessionMap) (sid : String) (data : RVal)
    (now : Int) : Bool × SessionMap :=
  match m.lookup sid with
  | none => (false, m)
  | some s =>
    (true, m.update sid { s with data := data, last_accessed := now })

/-- `SessionStore.destroy` (http.py lines 76-82): delete and return true
iff the id was present.  No TTL check is performed. -/
def SessionStore.destroy (m : SessionMap) (sid : String) :
    Bool × SessionMap :=
  match m.lookup sid with
  | none => (false, m)
  | some _ => (true, m.erase sid)

/- ======================================================================
   RateLimiter  (http.py lines 97-129)
   ====================================================================== -/

/-- `RateLimiter.is_allowed` (http.py lines 106-120) specialised to one
key's timestamp list (the defaultdict yields `[]` for a fresh key): prune
entries with `now - t >= window`, admit iff the pruned count is below
`max_requests`, appending `now` exactly when admitting. -/
def RateLimiter.is_allowed (max_requests : Nat) (window : Int)
    (ts : List Int) (now : Int) : Bool × List Int :=
  let pruned := ts.filter (fun t => now - t < window)
  if pruned.length < max_requests then
    (true, pruned ++ [now])
  else
    (false, pruned)

/-- `RateLimiter.remaining` (http.py lines 122-129) on one key's list. -/
def RateLimiter.remaining (max_requests : Nat) (window : Int)
    (ts : List Int) (now : Int) : Nat :=
  max_requests - (ts.filter (fun t => now - t < window)).length

/- ======================================================================
   CORSHandler  (http.py lines 135-166)
   ====================================================================== -/

/-- Configuration of `CORSHandler.__init__` after normalisation (origins
already a list, methods/headers already defaulted). -/
structure CORSHandler where
  origins : List String
  methods : List String
  headers : List String
  credentials : Bool
  max_age : Nat
deriving Repr, DecidableEq

/-- `', '.join(xs)`. -/
def joinComma (xs : List String) : String :=
  String.intercalate ", " xs

/-- Python truthiness test `request_origin and request_origin in
self.origins`: an empty string is falsy, so it never takes the echo
branch. -/
def corsEchoes (origins : List String) (request_origin : Option String) :
    Bool :=
  match request_origin with
  | some o => (!(o = "")) && origins.contains o
  | none => false

/-- `CORSHandler.add_headers` (http.py lines 146-166).  `request_origin`
is `none` for Python `None`. -/
def CORSHandler.add_headers (c : CORSHandler)
    (request_origin : Option String) : List (String × String) :=
  let originHdr :=
    if c.origins.contains "*" then
      [("Access-Control-Allow-Origin", "*")]
    else if corsEchoes c.origins request_origin then
      [("Access-Control-Allow-Origin", request_origin.getD "")]
    else
      match c.origins with
      | [] => []
      | o :: _ => [("Access-Control-Allow-Origin", o)]
  originHdr ++
    [("Access-Control-Allow-Methods", joinComma c.methods),
     ("Access-Control-Allow-Headers", joinComma c.headers),
     ("Access-Control-Max-Age", toString c.max_age)] ++
    (if c.credentials then [("Access-Control-Allow-Credentials", "true")]
     else [])

/- ======================================================================
   Route table  (http.py lines 278-381)
   ====================================================================== -/

/-- One element of a compiled path pattern.  `_path_to_regex` turns
`:name` (colon followed by word characters) into the named group
`(?P<name>[^/]+)` and passes every other character into the regex
unescaped, where `.` is the any-character and a following `?` makes the
preceding element optional (`opt`).  The remaining regex metacharacters
(`*`, `+`, `(`, `)`, `[`, `]`, `\x7b`, `\x7d`, `|`, `^`, `$`, `\\`, and the
lazy `??`) are outside this model; the theorems about all templates are
restricted accordingly. -/
inductive PatItem where
  | lit (c : Char)
  | anyChar
  | group (name : String)
  | opt (p : PatItem)
deriving Repr, DecidableEq

/-- `\w` on ASCII: letters, digits, underscore. -/
def isWordChar (c : Char) : Bool :=
  c.isAlphanum || c = '_'

/-- Helper: `dropWhile` never lengthens a list. -/
theorem dropWhile_length_le (p : Char → Bool) (l : List Char) :
    (l.dropWhile p).length ≤ l.length := by
  induction l with
  | nil => simp [List.dropWhile]
  | cons x xs ih =>
    by_cases h : p x
    · simp [List.dropWhile, h]
      omega
    · simp [List.dropWhile, h]

/-- `_path_to_regex` (http.py lines 368-372) on the character list of the
template: replace each `:name` with a named `[^/]+` group, keep other
characters; the result is matched anchored at both ends. -/
def path_to_regex_aux : List Char → List PatItem
  | [] => []
  | ':' :: rest =>
    if (rest.takeWhile isWordChar).length > 0 then
      PatItem.group (String.mk (rest.takeWhile isWordChar)) ::
        path_to_regex_aux (rest.dropWhile isWordChar)
    else
      PatItem.lit ':' :: path_to_regex_aux rest
  | '.' :: rest => PatItem.anyChar :: path_to_regex_aux rest
  | c :: rest => PatItem.lit c :: path_to_regex_aux rest
termination_by l => l.length
decreasing_by
  · simp only [List.length_cons]
    exact Nat.lt_succ_of_le (dropWhile_length_le isWordChar rest)
  · simp
  · simp
  · simp

/-- The `?` quantifier of the compiled regex: a pattern element directly
followed by a literal `?` becomes optional, exactly as `re` applies `?`
to the preceding single element (the whole named group for a `:name`
segment).  A `?` with no preceding element is kept literal (the source
would raise re.error there, outside this model), as is the lazy `??`. -/
def applyQuant : List PatItem → List PatItem
  | [] => []
  | p :: PatItem.lit c :: rest2 =>
    if c = '?' then PatItem.opt p :: applyQuant rest2
    else p :: applyQuant (PatItem.lit c :: rest2)
  | p :: rest => p :: applyQuant rest

/-- `_path_to_regex` applied to a template string: substitute the
`:name` groups, then read the surviving `?` characters as quantifiers. -/
def path_to_regex (path : String) : List PatItem :=
  applyQuant (path_to_regex_aux path.data)

/-- The regex metacharacters that `_path_to_regex` leaves active but
this model does not interpret (plus `?`, which it does interpret and
which breaks the non-empty-parameter property): templates containing
any of them are outside the faithful domain of the matcher, so the
universally quantified theorems below exclude them. -/
def isRegexMeta (c : Char) : Bool :=
  c = '?' || c = '*' || c = '+' || c = '(' || c = ')' || c = '[' ||
  c = ']' || c = '\x7b' || c = '\x7d' || c = '|' || c = '^' || c = '$' ||
  c = '\\'

/-- A pattern element that is neither a literal `?` nor quantified. -/
def quantFree : PatItem → Bool
  | PatItem.lit c => ¬ c = '?'
  | PatItem.opt _ => false
  | _ => true

/-- A stage-one pattern with no literal `?` (hence `applyQuant` leaves
it unchanged) and no quantified element. -/
def noQuantItems (ps : List PatItem) : Bool :=
  ps.all quantFree

/-- A pattern element that is not quantified. -/
def optFree : PatItem → Bool
  | PatItem.opt _ => false
  | _ => true

/-- A pattern with no optional element. -/
def noOpt (ps : List PatItem) : Bool :=
  ps.all optFree

/- Python `re.match` of the anchored pattern against the path, with the
captured named groups in pattern order (`groupdict`): a participating
group captures its string (`some`), a skipped optional group is present
with value `none`, exactly as `groupdict()` maps it to Python `None`.
`[^/]+` is greedy with backtracking (longest capture first), as is `?`
(one occurrence tried before zero); `$` accepts the end of the string or
a position just before a final newline. -/
mutual

def matchPat : List PatItem → List Char →
    Option (List (String × Option String))
  | [], xs => if xs = [] ∨ xs = ['\n'] then some [] else none
  | PatItem.lit _ :: _, [] => none
  | PatItem.lit c :: ps, x :: xs =>
    if x = c then matchPat ps xs else none
  | PatItem.anyChar :: _, [] => none
  | PatItem.anyChar :: ps, x :: xs =>
    if x = '\n' then none else matchPat ps xs
  | PatItem.group n :: ps, xs =>
    tryGroup n false ps xs ((xs.takeWhile (fun c => ¬ c = '/')).length)
  | PatItem.opt (PatItem.group n) :: ps, xs =>
    tryGroup n true ps xs ((xs.takeWhile (fun c => ¬ c = '/')).length)
  | PatItem.opt (PatItem.lit _) :: ps, [] => matchPat ps []
  | PatItem.opt (PatItem.lit c) :: ps, x :: xs =>
    if x = c then
      match matchPat ps xs with
      | some gs => some gs
      | none => matchPat ps (x :: xs)
    else matchPat ps (x :: xs)
  | PatItem.opt PatItem.anyChar :: ps, [] => matchPat ps []
  | PatItem.opt PatItem.anyChar :: ps, x :: xs =>
    if x = '\n' then matchPat ps (x :: xs)
    else
      match matchPat ps xs with
      | some gs => some gs
      | none => matchPat ps (x :: xs)
  | PatItem.opt (PatItem.opt _) :: _, _ => none
termination_by ps _ => (ps.length, 0)

def tryGroup (n : String) (allowZero : Bool) (ps : List PatItem)
    (xs : List Char) : Nat → Option (List (String × Option String))
  | 0 =>
    if allowZero then (matchPat ps xs).map (fun gs => (n, none) :: gs)
    else none
  | k + 1 =>
    match matchPat ps (xs.drop (k + 1)) with
    | some gs => some ((n, some (String.mk (xs.take (k + 1)))) :: gs)
    | none => tryGroup n allowZero ps xs k
termination_by k => (ps.length, k + 1)

end

/-- One registered route: compiled pattern, upper-cased method list, the
handler (modelled by its outcome on the request under consideration:
either a returned value or a raised failure message), and the original
template. -/
structure Route where
  pattern : List PatItem
  methods : List String
  handler : Except String RVal
  original_path : String

/-- Python `str.upper()` on the ASCII method names used here. -/
def pyUpper (s : String) : String :=
  String.mk (s.data.map Char.toUpper)

/-- `RiftHTTPServer.route` (http.py lines 291-294): compile the template
and append the entry. -/
def RiftHTTPServer.route (routes : List Route) (path : String)
    (methods : List String) (handler : Except String RVal) : List Route :=
  routes ++ [{ pattern := path_to_regex path,
               methods := methods.map pyUpper,
               handler := handler,
               original_path := path }]

/-- `RiftHTTPServer._match_route` (http.py lines 374-381): scan in
registration order; skip entries whose method list excludes the request
method; return the first whose pattern matches, with its `groupdict`. -/
def match_route (routes : List Route) (method : String) (path : String) :
    Option (Except String RVal × List (String × Option String)) :=
  match routes with
  | [] => none
  | r :: rs =>
    if r.methods.contains method then
      match matchPat r.pattern path.data with
      | some gs => some (r.handler, gs)
      | none => match_route rs method path
    else
      match_route rs method path

/- ======================================================================
   Request dispatch  (http.py lines 472-534, 573-577)
   ====================================================================== -/

/-- The observable outgoing action of the dispatcher: `_send_response(v)`
with the handler/middleware value, `_send_error(status, body)`, or
`_serve_static(directory, relative_path)` for a static-mount hit. -/
inductive Sent where
  | response (v : RVal)
  | errorSent (status : Nat) (body : RVal)
  | staticFile (directory : String) (relative_path : String)
deriving Repr

/-- The middleware loop of `_handle_request` (http.py lines 517-527):
each middleware outcome is either a raised failure (aborts with a 500
carrying the message) or a returned value; a returned dict containing
the key `status` is sent as-is and ends processing; anything else falls
through to the next middleware.  Returns `none` when the chain runs to
completion. -/
def runMiddleware : List (Except String RVal) → Option Sent
  | [] => none
  | Except.error msg :: _ =>
    some (Sent.errorSent 500 (RVal.vDict [("error", RVal.vStr msg)]))
  | Except.ok v :: rest =>
    match v with
    | RVal.vDict fields =>
      if hasKey fields "status" then some (Sent.response v)
      else runMiddleware rest
    | _ => runMiddleware rest

/-- `_handle_request` (http.py lines 476-534), with body parsing and
request assembly elided (the middleware and handler are modelled by their
outcomes on this request): static mounts are scanned first in
registration order; then `_match_route`, with a 404 when nothing matches;
then the middleware chain; then the matched handler, whose raised failure
becomes a 500 carrying the message. -/
def handle_request (statics : List (String × String))
    (routes : List Route) (middleware : List (Except String RVal))
    (method : String) (path : String) : Sent :=
  match statics.find? (fun p => path.startsWith p.1) with
  | some (url_path, directory) =>
    Sent.staticFile directory
      ((path.drop url_path.length).dropWhile (fun c => c = '/'))
  | none =>
    match match_route routes method path with
    | none =>
      Sent.errorSent 404 (RVal.vDict [("error", RVal.vStr "Not found")])
    | some (handler, _params) =>
      match runMiddleware middleware with
      | some s => s
      | none =>
        match handler with
        | Except.ok v => Sent.response v
        | Except.error msg =>
          Sent.errorSent 500 (RVal.vDict [("error", RVal.vStr msg)])

/- ======================================================================
   Claim C8 (CORS headers)
   ====================================================================== -/

/-- Lookup in an emitted header list. -/
def hlookup (hs : List (String × String)) (k : String) : Option String :=
  (hs.find? (fun p => p.1 = k)).map (fun p => p.2)

/- ======================================================================
   Claim C7 (middleware chain and 500 on raise)
   ====================================================================== -/

/-- A middleware outcome that neither raises nor short-circuits: a
returned value that is not a dict carrying the key `status` (including
`None`). -/
def fallsThrough : Except String RVal → Bool
  | Except.ok (RVal.vDict f) => !(hasKey f "status")
  | Except.ok _ => true
  | Except.error _ => false

/- ======================================================================
   WebSocket codec  (http.py lines 172-269)
   ====================================================================== -/

/-- Python `n.to_bytes(k, 'big')` (defined for `n < 256^k`, which the
caller guarantees; Python raises OverflowError beyond that). -/
def toBytesBE : Nat → Nat → List Nat
  | 0, _ => []
  | k + 1, n => toBytesBE k (n / 256) ++ [n % 256]

/-- Python `int.from_bytes(bs, 'big')`. -/
def fromBytesBE (bs : List Nat) : Nat :=
  bs.foldl (fun acc b => acc * 256 + b) 0

/-- A Unicode scalar value (the code points a Python `str` may hold,
excluding surrogates). -/
def validScalar (c : Nat) : Prop :=
  c < 0xD800 ∨ (0xE000 ≤ c ∧ c < 0x110000)

/-- UTF-8 encoding of one scalar value (`str.encode('utf-8')`,
per-character). -/
def utf8EncodeChar (c : Nat) : List Nat :=
  if c < 0x80 then [c]
  else if c < 0x800 then [0xC0 + c / 64, 0x80 + c % 64]
  else if c < 0x10000 then
    [0xE0 + c / 4096, 0x80 + c / 64 % 64, 0x80 + c % 64]
  else
    [0xF0 + c / 262144, 0x80 + c / 4096 % 64, 0x80 + c / 64 % 64,
     0x80 + c % 64]

/-- `message.encode('utf-8')`. -/
def utf8Encode (s : String) : List Nat :=
  (s.data.map (fun c => utf8EncodeChar c.toNat)).flatten

/-- A UTF-8 continuation byte. -/
def isCont (b : Nat) : Bool :=
  0x80 ≤ b ∧ b < 0xC0

/-- Decoding of a 2-byte UTF-8 sequence after lead byte `b` in
[0xC2, 0xDF]. -/
def utf8Two (b : Nat) : List Nat → Option (Nat × List Nat)
  | b1 :: rest =>
    if isCont b1 then some ((b - 0xC0) * 64 + (b1 - 0x80), rest)
    else none
  | [] => none

/-- Decoding of a 3-byte UTF-8 sequence after lead byte `b` in
[0xE0, 0xEF]: rejects overlong forms (below 0x800) and surrogates. -/
def utf8Three (b : Nat) : List Nat → Option (Nat × List Nat)
  | b1 :: b2 :: rest =>
    if isCont b1 && isCont b2 then
      let c := (b - 0xE0) * 4096 + (b1 - 0x80) * 64 + (b2 - 0x80)
      if 0x800 ≤ c ∧ ¬ (0xD800 ≤ c ∧ c < 0xE000) then some (c, rest)
      else none
    else none
  | _ => none

/-- Decoding of a 4-byte UTF-8 sequence after lead byte `b` in
[0xF0, 0xF4]: rejects overlong forms (below 0x10000) and values above
0x10FFFF. -/
def utf8Four (b : Nat) : List Nat → Option (Nat × List Nat)
  | b1 :: b2 :: b3 :: rest =>
    if isCont b1 && isCont b2 && isCont b3 then
      let c := (b - 0xF0) * 262144 + (b1 - 0x80) * 4096 +
        (b2 - 0x80) * 64 + (b3 - 0x80)
      if 0x10000 ≤ c ∧ c < 0x110000 then some (c, rest)
      else none
    else none
  | _ => none

/-- Strict decoding of one UTF-8 scalar value from the front of a byte
list, returning it with the remaining bytes; rejects truncated
sequences, stray continuation bytes (and the always-invalid lead bytes
0xC0/0xC1 and 0xF5-0xFF), overlong forms, surrogates and values above
0x10FFFF, exactly as CPython's strict `bytes.decode('utf-8')` does. -/
def utf8DecodeOne : List Nat → Option (Nat × List Nat)
  | [] => none
  | b :: rest =>
    if b < 0x80 then some (b, rest)
    else if b < 0xC2 then none
    else if b < 0xE0 then utf8Two b rest
    else if b < 0xF0 then utf8Three b rest
    else if b < 0xF5 then utf8Four b rest
    else none

theorem utf8Two_shrinks (b : Nat) (l : List Nat) (c : Nat)
    (r : List Nat) (h : utf8Two b l = some (c, r)) :
    r.length < l.length := by
  cases l with
  | nil => simp [utf8Two] at h
  | cons b1 rest =>
    simp only [utf8Two] at h
    by_cases hc : isCont b1 = true
    · rw [if_pos hc] at h
      cases h
      simp
    · rw [if_neg hc] at h
      cases h

theorem utf8Three_shrinks (b : Nat) (l : List Nat) (c : Nat)
    (r : List Nat) (h : utf8Three b l = some (c, r)) :
    r.length < l.length := by
  match l with
  | [] => simp [utf8Three] at h
  | [b1] => simp [utf8Three] at h
  | b1 :: b2 :: rest =>
    simp only [utf8Three] at h
    by_cases hc : (isCont b1 && isCont b2) = true
    · rw [if_pos hc] at h
      by_cases hr : 0x800 ≤ (b - 0xE0) * 4096 + (b1 - 0x80) * 64 +
          (b2 - 0x80) ∧ ¬ (0xD800 ≤ (b - 0xE0) * 4096 +
          (b1 - 0x80) * 64 + (b2 - 0x80) ∧
          (b - 0xE0) * 4096 + (b1 - 0x80) * 64 + (b2 - 0x80) < 0xE000)
      · rw [if_pos hr] at h
        cases h
        simp
        omega
      · rw [if_neg hr] at h
        cases h
    · rw [if_neg hc] at h
      cases h

theorem utf8Four_shrinks (b : Nat) (l : List Nat) (c : Nat)
    (r : List Nat) (h : utf8Four b l = some (c, r)) :
    r.length < l.length := by
  match l with
  | [] => simp [utf8Four] at h
  | [b1] => simp [utf8Four] at h
  | [b1, b2] => simp [utf8Four] at h
  | b1 :: b2 :: b3 :: rest =>
    simp only [utf8Four] at h
    by_cases hc : (isCont b1 && isCont b2 && isCont b3) = true
    · rw [if_pos hc] at h
      by_cases hr : 0x10000 ≤ (b - 0xF0) * 262144 + (b1 - 0x80) * 4096 +
          (b2 - 0x80) * 64 + (b3 - 0x80) ∧
          (b - 0xF0) * 262144 + (b1 - 0x80) * 4096 +
          (b2 - 0x80) * 64 + (b3 - 0x80) < 0x110000
      · rw [if_pos hr] at h
        cases h
        simp
        omega
      · rw [if_neg hr] at h
        cases h
    · rw [if_neg hc] at h
      cases h

theorem utf8DecodeOne_shrinks (l : List Nat) (c : Nat) (r : List Nat)
    (h : utf8DecodeOne l = some (c, r)) : r.length < l.length := by
  cases l with
  | nil => simp [utf8DecodeOne] at h
  | cons b rest =>
    simp only [utf8DecodeOne] at h
    by_cases h1 : b < 0x80
    · rw [if_pos h1] at h
      cases h
      simp
    · rw [if_neg h1] at h
      by_cases h2 : b < 0xC2
      · rw [if_pos h2] at h
        cases h
      · rw [if_neg h2] at h
        by_cases h3 : b < 0xE0
        · rw [if_pos h3] at h
          have := utf8Two_shrinks b rest c r h
          simp only [List.length_cons]
          omega
        · rw [if_neg h3] at h
          by_cases h4 : b < 0xF0
          · rw [if_pos h4] at h
            have := utf8Three_shrinks b rest c r h
            simp only [List.length_cons]
            omega
          · rw [if_neg h4] at h
            by_cases h5 : b < 0xF5
            · rw [if_pos h5] at h
              have := utf8Four_shrinks b rest c r h
              simp only [List.length_cons]
              omega
            · rw [if_neg h5] at h
              cases h

/-- Strict UTF-8 decoding of a whole byte list to scalar values
(`bytes.decode('utf-8')`): decode scalars until the input is exhausted,
failing if any step fails. -/
def utf8Decode (l : List Nat) : Option (List Nat) :=
  match l with
  | [] => some []
  | b :: rest =>
    match h : utf8DecodeOne (b :: rest) with
    | some cr => (utf8Decode cr.2).map (fun cs => cr.1 :: cs)
    | none => none
termination_by l.length
decreasing_by
  exact utf8DecodeOne_shrinks (b :: rest) cr.1 cr.2 h

/-- `bytes.decode('utf-8')` producing a string. -/
def utf8DecodeStr (bs : List Nat) : Option String :=
  (utf8Decode bs).map (fun cs => String.mk (cs.map Char.ofNat))

/-- The frame length header of `WebSocketConnection.send` (http.py lines
209-217): the literal length if at most 125, else marker 126 with a
2-byte big-endian length if at most 65535, else marker 127 with an
8-byte big-endian length.  `maskBit` is 0 for the unmasked frames the
server sends and 0x80 for masked client frames. -/
def wsLenHeader (maskBit : Nat) (n : Nat) : List Nat :=
  if n ≤ 125 then [maskBit + n]
  else if n ≤ 65535 then (maskBit + 126) :: toBytesBE 2 n
  else (maskBit + 127) :: toBytesBE 8 n

/-- `WebSocketConnection.send` (http.py lines 201-224): the bytes
written for a text message — byte 0x81 (FIN, text opcode), the length
header, then the unmasked UTF-8 payload. -/
def WebSocketConnection.send (message : String) : List Nat :=
  let data := utf8Encode message
  0x81 :: (wsLenHeader 0 data.length ++ data)

/-- XOR-masking of a payload with a 4-byte key starting at index `i`
(client-side masking `data[i] ^ mask[i % 4]`). -/
def maskBytesGo (mask : List Nat) (i : Nat) : List Nat → List Nat
  | [] => []
  | b :: bs => (b ^^^ mask.getD (i % 4) 0) :: maskBytesGo mask (i + 1) bs

/-- A masked client text frame carrying `message`. -/
def clientTextFrame (mask : List Nat) (message : String) : List Nat :=
  let data := utf8Encode message
  0x81 :: (wsLenHeader 0x80 data.length ++ mask ++ maskBytesGo mask 0 data)

/-- The unmasking loop of `receive` (http.py lines 247-249):
`for i in range(length): data[i] ^= mask[i % 4]`.  `remaining` counts
the iterations left, `data` is the unprocessed suffix; an out-of-range
access of `data[i]` or `mask[i % 4]` is an IndexError (caught by the
bare `except` of `receive`), modelled as `none`. -/
def unmaskLoop (mask : List Nat) (i : Nat) :
    Nat → List Nat → Option (List Nat)
  | 0, data => some data
  | _ + 1, [] => none
  | r + 1, b :: bs =>
    match mask.get? (i % 4) with
    | some m =>
      (unmaskLoop mask (i + 1) r bs).map (fun rest => (b ^^^ m) :: rest)
    | none => none

/-- The extended-length parse of `receive` (http.py lines 237-240):
`length` is the low 7 bits of header byte 1, extended by 2 or 8
big-endian bytes when it is the marker 126 or 127; returns the length
and the remaining stream. -/
def wsParseLen (len0 : Nat) (s1 : List Nat) : Nat × List Nat :=
  if len0 = 126 then (fromBytesBE (s1.take 2), s1.drop 2)
  else if len0 = 127 then (fromBytesBE (s1.take 8), s1.drop 8)
  else (len0, s1)

/-- The body of `receive` after the length parse (http.py lines
242-257): if masked, read a 4-byte key; read the payload; XOR-unmask if
masked (an index error from a short read is swallowed to no-message);
opcode 1 yields the UTF-8-decoded text (decode failure swallowed),
opcode 8 (close) and all others yield no message. -/
def wsBody (opcode : Nat) (masked : Bool) (length : Nat)
    (s2 : List Nat) : Option String :=
  let mask := if masked then s2.take 4 else []
  let s3 := if masked then s2.drop 4 else s2
  let data := s3.take length
  match (if masked then unmaskLoop mask 0 length data else some data) with
  | none => none
  | some payload => if opcode = 1 then utf8DecodeStr payload else none

/-- `WebSocketConnection.receive` (http.py lines 226-260) on an incoming
byte stream: a stream shorter than the 2-byte header yields no message;
the opcode is the low nibble of byte 0 and the mask flag the high bit of
byte 1.  For byte inputs (`b < 256`) the arithmetic `b0 % 16`,
`128 ≤ b1` and `b1 % 128` agrees with the source's `b0 & 0x0F`,
`b1 & 0x80` and `b1 & 0x7F`. -/
def WebSocketConnection.receive (stream : List Nat) : Option String :=
  match stream with
  | b0 :: b1 :: s1 =>
    match wsParseLen (b1 % 128) s1 with
    | (length, s2) => wsBody (b0 % 16) (decide (128 ≤ b1)) length s2
  | _ => none

/- ======================================================================
   Body decoding  (http.py lines 393-465)
   ====================================================================== -/

/-- Does `needle` start `hay`? -/
def startsList : List Char → List Char → Bool
  | [], _ => true
  | _ :: _, [] => false
  | c :: cs, h :: hs => c = h && startsList cs hs

/-- Does `needle` occur in `hay` (Python `needle in hay`)? -/
def containsSub : List Char → List Char → Bool
  | [], needle => needle.isEmpty
  | h :: hs, needle => startsList needle (h :: hs) || containsSub hs needle

/-- Python `sub in s` on strings. -/
def strContains (s sub : String) : Bool :=
  containsSub s.data sub.data

/-- Valid second byte for a 3-byte UTF-8 lead, per lead (0xE0 forbids
the overlong range, 0xED the surrogate range). -/
def utf8Lead3Ok (b b1 : Nat) : Bool :=
  if b = 0xE0 then 0xA0 ≤ b1 && b1 < 0xC0
  else if b = 0xED then 0x80 ≤ b1 && b1 < 0xA0
  else isCont b1

/-- Valid second byte for a 4-byte UTF-8 lead, per lead (0xF0 forbids
the overlong range, 0xF4 the above-0x10FFFF range). -/
def utf8Lead4Ok (b b1 : Nat) : Bool :=
  if b = 0xF0 then 0x90 ≤ b1 && b1 < 0xC0
  else if b = 0xF4 then 0x80 ≤ b1 && b1 < 0x90
  else isCont b1

/-- When strict decoding fails at the head of the list, the number of
bytes CPython's `errors='replace'` handler substitutes with one U+FFFD:
the maximal subpart of the ill-formed sequence. -/
def utf8FailSkip : List Nat → Nat
  | [] => 1
  | b :: rest =>
    if b < 0xC2 then 1
    else if b < 0xE0 then 1
    else if b < 0xF0 then
      match rest with
      | b1 :: _ => if utf8Lead3Ok b b1 then 2 else 1
      | [] => 1
    else if b < 0xF5 then
      match rest with
      | b1 :: b2 :: _ =>
        if utf8Lead4Ok b b1 then (if isCont b2 then 3 else 2) else 1
      | [b1] => if utf8Lead4Ok b b1 then 2 else 1
      | [] => 1
    else 1

theorem utf8FailSkip_pos (l : List Nat) : 1 ≤ utf8FailSkip l := by
  match l with
  | [] => exact le_refl 1
  | b :: rest =>
    rw [utf8FailSkip.eq_def]
    repeat' split
    all_goals omega

/-- `bytes.decode('utf-8', errors='replace')` to scalar values: decode
greedily, substituting U+FFFD for each maximal ill-formed subpart. -/
def utf8Replace (l : List Nat) : List Nat :=
  match l with
  | [] => []
  | b :: rest =>
    match h : utf8DecodeOne (b :: rest) with
    | some cr => cr.1 :: utf8Replace cr.2
    | none => 0xFFFD :: utf8Replace ((b :: rest).drop
        (utf8FailSkip (b :: rest)))
termination_by l.length
decreasing_by
  · exact utf8DecodeOne_shrinks _ _ _ h
  · have h1 := utf8FailSkip_pos (b :: rest)
    simp only [List.length_drop, List.length_cons]
    omega

/-- `bytes.decode('utf-8', errors='replace')` as a string. -/
def utf8ReplaceStr (bs : List Nat) : String :=
  String.mk ((utf8Replace bs).map Char.ofNat)

/-- `str.split(sep)` for a one-character separator. -/
def splitOnChar (sep : Char) : List Char → List (List Char)
  | [] => [[]]
  | c :: rest =>
    if c = sep then [] :: splitOnChar sep rest
    else
      match splitOnChar sep rest with
      | h :: t => (c :: h) :: t
      | [] => [[c]]

/-- `s.split('=', 1)`: split at the first `=`, or `none` when there is
no `=`. -/
def splitFirstEq : List Char → Option (List Char × List Char)
  | [] => none
  | c :: rest =>
    if c = '=' then some ([], rest)
    else (splitFirstEq rest).map (fun p => (c :: p.1, p.2))

/-- `s.replace('+', ' ')`. -/
def plusToSpace (l : List Char) : List Char :=
  l.map (fun c => if c = '+' then ' ' else c)

/-- Hex digit value, when valid. -/
def hexVal (c : Char) : Option Nat :=
  if '0' ≤ c ∧ c ≤ '9' then some (c.toNat - '0'.toNat)
  else if 'a' ≤ c ∧ c ≤ 'f' then some (c.toNat - 'a'.toNat + 10)
  else if 'A' ≤ c ∧ c ≤ 'F' then some (c.toNat - 'A'.toNat + 10)
  else none

/-- The tokenisation step of `urllib.parse.unquote`: each valid `%XX`
escape becomes a byte, everything else stays a character (an invalid
escape keeps its `%` literally). -/
def pctTokens : List Char → List (Char ⊕ Nat)
  | '%' :: a :: b :: rest =>
    match hexVal a, hexVal b with
    | some ha, some hb => Sum.inr (16 * ha + hb) :: pctTokens rest
    | _, _ => Sum.inl '%' :: pctTokens (a :: b :: rest)
  | c :: rest => Sum.inl c :: pctTokens rest
  | [] => []

/-- Collect the leading run of decoded bytes. -/
def collectBytes : List (Char ⊕ Nat) → List Nat × List (Char ⊕ Nat)
  | Sum.inr b :: rest =>
    match collectBytes rest with
    | (bs, r) => (b :: bs, r)
  | toks => ([], toks)

theorem collectBytes_shrinks (toks : List (Char ⊕ Nat)) :
    (collectBytes toks).2.length ≤ toks.length := by
  induction toks with
  | nil => simp [collectBytes]
  | cons t rest ih =>
    cases t with
    | inl c => simp [collectBytes]
    | inr b =>
      rw [collectBytes]
      cases h : collectBytes rest with
      | mk bs r =>
        rw [h] at ih
        simp only [List.length_cons] at ih ⊢
        omega

/-- Decode the token stream: each maximal run of escape bytes is decoded
as UTF-8 with invalid sequences replaced (`errors='replace'`, the
default of `urllib.parse.unquote`). -/
def pctDecode (toks : List (Char ⊕ Nat)) : List Char :=
  match toks with
  | [] => []
  | Sum.inl c :: rest => c :: pctDecode rest
  | Sum.inr b :: rest =>
    match h : collectBytes rest with
    | (bs, r) => ((utf8Replace (b :: bs)).map Char.ofNat) ++ pctDecode r
termination_by toks.length
decreasing_by
  · simp
  · have h1 := collectBytes_shrinks rest
    rw [h] at h1
    simp only at h1
    simp only [List.length_cons]
    omega

/-- `urllib.parse.unquote` with the default UTF-8/replace handling. -/
def pyUnquote (l : List Char) : List Char :=
  pctDecode (pctTokens l)

/-- The pair list of `urllib.parse.parse_qsl(qs)` with default options:
split on `&`, skip empty segments, skip pairs without `=` and pairs with
an empty value (`keep_blank_values=False`), then `+`-to-space and
percent-decode each side. -/
def pyParseQsl (l : List Char) : List (String × String) :=
  (splitOnChar '&' l).filterMap (fun nv =>
    if nv.isEmpty then none
    else
      match splitFirstEq nv with
      | none => none
      | some (n, v) =>
        if v.isEmpty then none
        else some (String.mk (pyUnquote (plusToSpace n)),
                   String.mk (pyUnquote (plusToSpace v))))

/-- Insert into an insertion-ordered multi-dict (Python `parse_qs`
grouping: first appearance fixes the position, later values append). -/
def addQsPair (acc : List (String × List String)) (kv : String × String) :
    List (String × List String) :=
  if acc.any (fun p => p.1 = kv.1) then
    acc.map (fun p => if p.1 = kv.1 then (p.1, p.2 ++ [kv.2]) else p)
  else acc ++ [(kv.1, [kv.2])]

/-- `urllib.parse.parse_qs(qs)`. -/
def pyParseQs (l : List Char) : List (String × List String) :=
  (pyParseQsl l).foldl addQsPair []

/-- The comprehension of the url-encoded branch (http.py lines 404-405):
`{k: v[0] if len(v) == 1 else v}`. -/
def qsToRVal (d : List (String × List String)) : RVal :=
  RVal.vDict (d.map (fun p =>
    (p.1,
     match p.2 with
     | [v] => RVal.vStr v
     | vs => RVal.vList (vs.map RVal.vStr))))

/-- JSON whitespace skipping (space, tab, newline, carriage return). -/
def jsonSkipWs (l : List Char) : List Char :=
  l.dropWhile (fun c => c = ' ' ∨ c = '\t' ∨ c = '\n' ∨ c = '\r')

/-- Single-character JSON string escapes. -/
def jsonEscChar (c : Char) : Option Char :=
  if c = '"' then some '"'
  else if c = '\\' then some '\\'
  else if c = '/' then some '/'
  else if c = 'b' then some (Char.ofNat 8)
  else if c = 'f' then some (Char.ofNat 12)
  else if c = 'n' then some '\n'
  else if c = 'r' then some '\r'
  else if c = 't' then some (Char.ofNat 9)
  else none

/-- Four hex digits to a number. -/
def hex4 (a b c d : Char) : Option Nat :=
  match hexVal a, hexVal b, hexVal c, hexVal d with
  | some ha, some hb, some hc, some hd =>
    some (((ha * 16 + hb) * 16 + hc) * 16 + hd)
  | _, _, _, _ => none

/-- JSON string body after the opening quote: content characters and
the remainder after the closing quote.  Control characters and invalid
escapes are rejected (strict mode); `\\uXXXX` surrogate pairs are
combined; a lone surrogate — which Python would keep in its `str` but a
Lean `String` cannot hold — is replaced with U+FFFD (outside every
claim's inputs). -/
def jsonStr : List Char → Option (List Char × List Char)
  | [] => none
  | '"' :: rest => some ([], rest)
  | '\\' :: 'u' :: a :: b :: c :: d :: '\\' :: 'u' :: e :: f :: g :: h
      :: rest' =>
    (match hex4 a b c d with
     | none => none
     | some n =>
       if 0xD800 ≤ n ∧ n < 0xDC00 then
         match hex4 e f g h with
         | some m =>
           if 0xDC00 ≤ m ∧ m < 0xE000 then
             (jsonStr rest').map (fun p =>
               (Char.ofNat (0x10000 + (n - 0xD800) * 0x400 +
                 (m - 0xDC00)) :: p.1, p.2))
           else
             (jsonStr ('\\' :: 'u' :: e :: f :: g :: h :: rest')).map
               (fun p => (Char.ofNat 0xFFFD :: p.1, p.2))
         | none =>
           (jsonStr ('\\' :: 'u' :: e :: f :: g :: h :: rest')).map
             (fun p => (Char.ofNat 0xFFFD :: p.1, p.2))
       else if 0xDC00 ≤ n ∧ n < 0xE000 then
         (jsonStr ('\\' :: 'u' :: e :: f :: g :: h :: rest')).map
           (fun p => (Char.ofNat 0xFFFD :: p.1, p.2))
       else
         (jsonStr ('\\' :: 'u' :: e :: f :: g :: h :: rest')).map
           (fun p => (Char.ofNat n :: p.1, p.2)))
  | '\\' :: 'u' :: a :: b :: c :: d :: rest =>
    (match hex4 a b c d with
     | none => none
     | some n =>
       if (0xD800 ≤ n ∧ n < 0xDC00) ∨ (0xDC00 ≤ n ∧ n < 0xE000) then
         (jsonStr rest).map (fun p => (Char.ofNat 0xFFFD :: p.1, p.2))
       else
         (jsonStr rest).map (fun p => (Char.ofNat n :: p.1, p.2)))
  | '\\' :: e :: rest =>
    (match jsonEscChar e with
     | some c => (jsonStr rest).map (fun p => (c :: p.1, p.2))
     | none => none)
  | c :: rest =>
    if c.toNat < 0x20 then none
    else (jsonStr rest).map (fun p => (c :: p.1, p.2))
termination_by l => l.length
decreasing_by all_goals (simp only [List.length_cons]; omega)

/-- Digits to a natural number. -/
def natFromDigits (ds : List Char) : Nat :=
  ds.foldl (fun acc c => acc * 10 + (c.toNat - '0'.toNat)) 0

/-- The integer/fraction/exponent lexing of JSON's NUMBER_RE after an
optional minus sign: int part is `0` or a nonzero-led digit run; the
fraction and exponent are consumed only when complete (else left in the
remainder, exactly as the regex leaves them). -/
def jsonNumCore (l1 : List Char) :
    Option ((List Char × List Char × List Char) × List Char) :=
  match l1 with
  | c :: rest =>
    if c.isDigit then
      let intDs := if c = '0' then ['0']
        else c :: rest.takeWhile Char.isDigit
      let after := if c = '0' then rest
        else rest.dropWhile Char.isDigit
      let fracState : List Char × List Char :=
        match after with
        | '.' :: fr =>
          if (fr.takeWhile Char.isDigit).isEmpty then ([], after)
          else ('.' :: fr.takeWhile Char.isDigit,
                fr.dropWhile Char.isDigit)
        | _ => ([], after)
      let fracDs := fracState.1
      let after2 := fracState.2
      let expState : List Char × List Char :=
        match after2 with
        | e :: fr =>
          if e = 'e' ∨ e = 'E' then
            match fr with
            | s :: fr2 =>
              if s = '+' ∨ s = '-' then
                if (fr2.takeWhile Char.isDigit).isEmpty then ([], after2)
                else (e :: s :: fr2.takeWhile Char.isDigit,
                      fr2.dropWhile Char.isDigit)
              else
                if (fr.takeWhile Char.isDigit).isEmpty then ([], after2)
                else (e :: fr.takeWhile Char.isDigit,
                      fr.dropWhile Char.isDigit)
            | [] => ([], after2)
          else ([], after2)
        | [] => ([], after2)
      some ((intDs, fracDs, expState.1), expState.2)
    else none
  | [] => none

/-- A JSON number at the head of the input: an integer lexeme becomes a
Python int (`vInt`), anything with a fraction or exponent a Python
float, kept as its lexeme (`vNumF`). -/
def jsonNumber (l : List Char) : Option (RVal × List Char) :=
  let sgnSplit : List Char × List Char :=
    match l with
    | '-' :: r => (['-'], r)
    | _ => ([], l)
  match jsonNumCore sgnSplit.2 with
  | none => none
  | some ((ints, fracs, exps), rest) =>
    if fracs.isEmpty && exps.isEmpty then
      let n : Int := Int.ofNat (natFromDigits ints)
      some (RVal.vInt (if sgnSplit.1.isEmpty then n else -n), rest)
    else
      some (RVal.vNumF (String.mk (sgnSplit.1 ++ ints ++ fracs ++ exps)),
            rest)

/-- Python dict assignment `d[k] = v`: overwrite in place if the key
exists, else append. -/
def pyDictInsert (d : List (String × RVal)) (k : String) (v : RVal) :
    List (String × RVal) :=
  if d.any (fun p => p.1 = k) then
    d.map (fun p => if p.1 = k then (k, v) else p)
  else d ++ [(k, v)]

/- Recursive-descent model of `json.loads` over the decoded character
list, fuelled (every two recursion levels consume at least one input
character, so the fuel `2 * length + 2` used by `jsonParse` never runs
out).  The non-standard `NaN/Infinity` extensions of Python's decoder
are not modelled (no claim involves them). -/
mutual

def jsonValue : Nat → List Char → Option (RVal × List Char)
  | 0, _ => none
  | fuel + 1, l =>
    match jsonSkipWs l with
    | 't' :: 'r' :: 'u' :: 'e' :: rest => some (RVal.vBool true, rest)
    | 'f' :: 'a' :: 'l' :: 's' :: 'e' :: rest =>
      some (RVal.vBool false, rest)
    | 'n' :: 'u' :: 'l' :: 'l' :: rest => some (RVal.vNone, rest)
    | '"' :: rest =>
      (jsonStr rest).map (fun p => (RVal.vStr (String.mk p.1), p.2))
    | '{' :: rest =>
      (match jsonSkipWs rest with
       | '}' :: r2 => some (RVal.vDict [], r2)
       | _ => jsonMembers fuel rest [])
    | '[' :: rest =>
      (match jsonSkipWs rest with
       | ']' :: r2 => some (RVal.vList [], r2)
       | _ => jsonItems fuel rest [])
    | l' => jsonNumber l'

def jsonMembers : Nat → List Char → List (String × RVal) →
    Option (RVal × List Char)
  | 0, _, _ => none
  | fuel + 1, l, acc =>
    match jsonSkipWs l with
    | '"' :: rest =>
      (match jsonStr rest with
       | none => none
       | some (k, r1) =>
         match jsonSkipWs r1 with
         | ':' :: r2 =>
           (match jsonValue fuel r2 with
            | none => none
            | some (v, r3) =>
              match jsonSkipWs r3 with
              | ',' :: r4 =>
                jsonMembers fuel r4 (pyDictInsert acc (String.mk k) v)
              | '}' :: r4 =>
                some (RVal.vDict (pyDictInsert acc (String.mk k) v), r4)
              | _ => none)
         | _ => none)
    | _ => none

def jsonItems : Nat → List Char → List RVal → Option (RVal × List Char)
  | 0, _, _ => none
  | fuel + 1, l, acc =>
    match jsonValue fuel l with
    | none => none
    | some (v, r1) =>
      match jsonSkipWs r1 with
      | ',' :: r2 => jsonItems fuel r2 (acc ++ [v])
      | ']' :: r2 => some (RVal.vList (acc ++ [v]), r2)
      | _ => none

end

/-- `json.loads`: parse one value and require only whitespace after it
(`none` is a raised JSONDecodeError). -/
def jsonParse (l : List Char) : Option RVal :=
  match jsonValue (2 * l.length + 2) l with
  | none => none
  | some (v, rest) => if (jsonSkipWs rest).isEmpty then some v else none

/- ======================================================================
   Multipart parsing  (http.py lines 412-465)
   ====================================================================== -/

/-- `re.search(r'boundary=([^;]+)', content_type)`: the first occurrence
of `boundary=` followed by at least one non-semicolon character, whose
maximal non-semicolon run is captured (the search backtracks past
occurrences with an empty capture). -/
def findBoundary : List Char → Option (List Char)
  | [] => none
  | c :: rest =>
    if startsList "boundary=".data (c :: rest) then
      match ((c :: rest).drop 9).takeWhile (fun x => ¬ x = ';') with
      | [] => findBoundary rest
      | cap => some cap
    else findBoundary rest

/-- Does `sep` start the byte list? -/
def startsBytes : List Nat → List Nat → Bool
  | [], _ => true
  | _ :: _, [] => false
  | s :: ss, b :: bs => s = b && startsBytes ss bs

/-- `bytes.split(sep)` for a non-empty separator (Python raises on an
empty separator; the boundary built by the caller is never empty). -/
def splitOnSeq (sep : List Nat) (l : List Nat) : List (List Nat) :=
  if hsep : sep.isEmpty then [l]
  else
    match l with
    | [] => [[]]
    | b :: rest =>
      if startsBytes sep (b :: rest) then
        match splitOnSeq sep ((b :: rest).drop sep.length) with
        | parts => [] :: parts
      else
        match splitOnSeq sep rest with
        | h :: t => (b :: h) :: t
        | [] => [[b]]
termination_by l.length
decreasing_by
  · have hne : 1 ≤ sep.length := by
      cases sep with
      | nil => simp at hsep
      | cons s ss => simp
    simp only [List.length_drop, List.length_cons]
    omega
  · simp only [List.length_cons]
    omega

/-- `bytes.find(sep)`: index of the first occurrence, `none` for -1. -/
def findSeq (sep : List Nat) : List Nat → Option Nat
  | [] => if sep.isEmpty then some 0 else none
  | b :: rest =>
    if startsBytes sep (b :: rest) then some 0
    else (findSeq sep rest).map (fun i => i + 1)

/-- ASCII whitespace for `bytes.strip`. -/
def isPyWs (b : Nat) : Bool :=
  b = 32 || b = 9 || b = 10 || b = 13 || b = 11 || b = 12

/-- `re.search(r'attr="([^"]+)"', s)` for a literal prefix such as
`name="`: first occurrence whose non-empty maximal non-quote run is
followed by a closing quote. -/
def searchAttr (attr : List Char) : List Char → Option (List Char)
  | [] => none
  | c :: rest =>
    if startsList attr (c :: rest) then
      match h : ((c :: rest).drop attr.length).takeWhile
          (fun x => ¬ x = '"') with
      | [] => searchAttr attr rest
      | cap =>
        match ((c :: rest).drop attr.length).drop cap.length with
        | '"' :: _ => some cap
        | _ => searchAttr attr rest
    else searchAttr attr rest

/-- `re.search(r'Content-Type: ([^\r\n]+)', s)`: first occurrence with a
non-empty maximal capture of non-CR/LF characters. -/
def searchCT : List Char → Option (List Char)
  | [] => none
  | c :: rest =>
    if startsList "Content-Type: ".data (c :: rest) then
      match ((c :: rest).drop 14).takeWhile
          (fun x => ¬ x = '\r' ∧ ¬ x = '\n') with
      | [] => searchCT rest
      | cap => some cap
    else searchCT rest

/-- Processing of one multipart part (http.py lines 425-460): skip
whitespace-only parts and parts without a blank line; decode the header
block strictly (a UnicodeDecodeError propagates: `none`); skip parts
without a `name="..."`; a part with a `filename="..."` becomes a file
record, else a plain field whose content is decoded with replacement. -/
def processPart (acc : List (String × RVal) × List RVal)
    (part : List Nat) : Option (List (String × RVal) × List RVal) :=
  if part.all isPyWs then some acc
  else
    match findSeq [13, 10, 13, 10] part with
    | none => some acc
    | some idx =>
      match utf8DecodeStr (part.take idx) with
      | none => none
      | some headers =>
        let content := (part.take (part.length - 2)).drop (idx + 4)
        match searchAttr "name=\"".data headers.data with
        | none => some acc
        | some nameCap =>
          match searchAttr "filename=\"".data headers.data with
          | some fnCap =>
            let ftype :=
              match searchCT headers.data with
              | some ct => String.mk ct
              | none => "application/octet-stream"
            some (acc.1,
              acc.2 ++ [RVal.vDict
                [("fieldname", RVal.vStr (String.mk nameCap)),
                 ("filename", RVal.vStr (String.mk fnCap)),
                 ("content", RVal.vBytes content),
                 ("content_type", RVal.vStr ftype),
                 ("size", RVal.vInt (Int.ofNat content.length))]])
          | none =>
            some (pyDictInsert acc.1 (String.mk nameCap)
                (RVal.vStr (utf8ReplaceStr content)),
              acc.2)

/-- `RiftHTTPServer._parse_multipart` (http.py lines 412-465): extract
the boundary (empty dict if absent), split on `--boundary` dropping the
first and last segments, process each part, and attach collected files
under `_files`.  `none` is a propagating exception (strict header
decode). -/
def parse_multipart (content_type : String) (body : List Nat) :
    Option RVal :=
  match findBoundary content_type.data with
  | none => some (RVal.vDict [])
  | some cap =>
    let boundary := utf8Encode (String.mk ('-' :: '-' :: cap))
    let parts := ((splitOnSeq boundary body).drop 1).dropLast
    match parts.foldlM processPart ([], []) with
    | none => none
    | some (fields, files) =>
      some (RVal.vDict
        (if files.isEmpty then fields
         else fields ++ [("_files", RVal.vList files)]))

/-- `RiftHTTPServer._parse_body` (http.py lines 393-410): empty body to
an empty dict; JSON by substring match on the content type, with a
JSONDecodeError caught to an empty dict but a UnicodeDecodeError from
the strict `body.decode('utf-8')` uncaught (`none`); url-encoded via
`parse_qs` after a strict decode with no surrounding try (`none` on
invalid UTF-8); multipart via `_parse_multipart`; anything else decoded
as text with replacement. -/
def parse_body (content_type : String) (body : List Nat) : Option RVal :=
  if body.isEmpty then some (RVal.vDict [])
  else if strContains content_type "application/json" then
    match utf8DecodeStr body with
    | none => none
    | some s =>
      match jsonParse s.data with
      | some v => some v
      | none => some (RVal.vDict [])
  else if strContains content_type "application/x-www-form-urlencoded"
      then
    match utf8DecodeStr body with
    | none => none
    | some s => some (qsToRVal (pyParseQs s.data))
  else if strContains content_type "multipart/form-data" then
    parse_multipart content_type body
  else
    some (RVal.vStr (utf8ReplaceStr body))

/- ======================================================================
   Theorems
   ====================================================================== -/

/- ======================================================================
   Helper lemmas
   ====================================================================== -/

theorem SessionMap.lookup_cons_ne (p : String × Session)
    (rest : SessionMap) (sid : String) (hp : ¬ p.1 = sid) :
    SessionMap.lookup (p :: rest) sid = SessionMap.lookup rest sid := by
  simp [SessionMap.lookup, List.find?, hp]

theorem SessionMap.lookup_erase (m : SessionMap) (sid : String) :
    (m.erase sid).lookup sid = none := by
  induction m with
  | nil => rfl
  | cons p rest ih =>
    by_cases h : p.1 = sid
    · have e : SessionMap.erase (p :: rest) sid
          = SessionMap.erase rest sid := by
        simp [SessionMap.erase, List.filter_cons, h]
      rw [e]
      exact ih
    · have e : SessionMap.erase (p :: rest) sid
          = p :: SessionMap.erase rest sid := by
        simp [SessionMap.erase, List.filter_cons, h]
      rw [e, SessionMap.lookup_cons_ne p _ sid h]
      exact ih

theorem SessionMap.lookup_update (m : SessionMap) (sid : String)
    (s₀ s : Session) (h : m.lookup sid = some s₀) :
    (m.update sid s).lookup sid = some s := by
  induction m with
  | nil => simp [SessionMap.lookup] at h
  | cons p rest ih =>
    by_cases hp : p.1 = sid
    · simp [SessionMap.update, SessionMap.lookup, List.find?, hp]
    · rw [SessionMap.lookup_cons_ne p rest sid hp] at h
      have goalEq : SessionMap.update (p :: rest) sid s
          = p :: SessionMap.update rest sid s := by
        simp [SessionMap.update, hp]
      rw [goalEq, SessionMap.lookup_cons_ne p _ sid hp]
      exact ih h

/- ======================================================================
   Claims C5, C6, C9
   ====================================================================== -/

/-- Claim C5: `is_allowed(key)` first prunes the key's recorded
timestamps to those strictly within the trailing window, then admits iff
the pruned count is strictly below the maximum, appending the current
timestamp exactly when admitting; with maximum 3 and window 60, four
calls at the same instant return true, true, true, false, and a call
after the window has elapsed returns true again. -/
theorem C5_rate_limiter_is_allowed (max_requests : Nat) (window : Int)
    (ts : List Int) (now t : Int) :
    (((RateLimiter.is_allowed max_requests window ts now).1 = true ↔
        (ts.filter (fun x => now - x < window)).length < max_requests) ∧
     ((RateLimiter.is_allowed max_requests window ts now).1 = true →
        (RateLimiter.is_allowed max_requests window ts now).2 =
          ts.filter (fun x => now - x < window) ++ [now]) ∧
     ((RateLimiter.is_allowed max_requests window ts now).1 = false →
        (RateLimiter.is_allowed max_requests window ts now).2 =
          ts.filter (fun x => now - x < window))) ∧
    ((RateLimiter.is_allowed 3 60 [] t).1 = true ∧
     (RateLimiter.is_allowed 3 60
       (RateLimiter.is_allowed 3 60 [] t).2 t).1 = true ∧
     (RateLimiter.is_allowed 3 60
       (RateLimiter.is_allowed 3 60
         (RateLimiter.is_allowed 3 60 [] t).2 t).2 t).1 = true ∧
     (RateLimiter.is_allowed 3 60
       (RateLimiter.is_allowed 3 60
         (RateLimiter.is_allowed 3 60
           (RateLimiter.is_allowed 3 60 [] t).2 t).2 t).2 t).1 = false ∧
     (RateLimiter.is_allowed 3 60
       (RateLimiter.is_allowed 3 60
         (RateLimiter.is_allowed 3 60
           (RateLimiter.is_allowed 3 60
             (RateLimiter.is_allowed 3 60 [] t).2 t).2 t).2 t).2
       (t + 60)).1 = true) := by
  constructor
  · unfold RateLimiter.is_allowed
    by_cases h : (ts.filter (fun x => now - x < window)).length
        < max_requests
    · simp [h]
    · simp [h]
  · simp [RateLimiter.is_allowed, List.filter]

/-- Witness for C5 at concrete inputs. -/
theorem C5_witness :
    ((RateLimiter.is_allowed 2 60 [100] 100).1 = true ↔
      ([100].filter (fun x => (100 : Int) - x < 60)).length < 2) ∧
    (RateLimiter.is_allowed 3 60
      (RateLimiter.is_allowed 3 60
        (RateLimiter.is_allowed 3 60
          (RateLimiter.is_allowed 3 60 [] (0 : Int)).2 0).2 0).2 0).1
      = false :=
  ⟨(C5_rate_limiter_is_allowed 2 60 [100] 100 0).1.1,
   (C5_rate_limiter_is_allowed 3 60 [] 0 0).2.2.2.2.1⟩

/-- Claim C6: `SessionStore.get` is absent for an unknown id; absent for
a known id whose idle time exceeds the ttl, deleting the entry at that
moment; otherwise it refreshes `last_accessed` to the current time and
returns the stored data — so with ttl 5 an access at second 4 resets the
expiry clock. -/
theorem C6_session_get (ttl : Int) (m : SessionMap) (sid : String)
    (now : Int) :
    (m.lookup sid = none → SessionStore.get ttl m sid now = (none, m)) ∧
    (∀ s, m.lookup sid = some s → now - s.last_accessed > ttl →
      (SessionStore.get ttl m sid now).1 = none ∧
      ((SessionStore.get ttl m sid now).2).lookup sid = none) ∧
    (∀ s, m.lookup sid = some s → ¬ now - s.last_accessed > ttl →
      (SessionStore.get ttl m sid now).1 = some s.data ∧
      ((SessionStore.get ttl m sid now).2).lookup sid =
        some { s with last_accessed := now }) ∧
    (∀ d : RVal,
      (SessionStore.get 5 [(sid, ⟨d, 0, 0⟩)] sid 4).1 = some d ∧
      (SessionStore.get 5
        (SessionStore.get 5 [(sid, ⟨d, 0, 0⟩)] sid 4).2 sid 9).1
        = some d ∧
      SessionStore.get 5 [(sid, ⟨d, 0, 0⟩)] sid 9 = (none, [])) := by
  refine ⟨?_, ?_, ?_, ?_⟩
  · intro h
    simp [SessionStore.get, h]
  · intro s hs hexp
    refine ⟨?_, ?_⟩
    · simp [SessionStore.get, hs, hexp]
    · simp only [SessionStore.get, hs, if_pos hexp]
      exact SessionMap.lookup_erase m sid
  · intro s hs hfresh
    refine ⟨?_, ?_⟩
    · simp [SessionStore.get, hs, hfresh]
    · simp only [SessionStore.get, hs, if_neg hfresh]
      exact SessionMap.lookup_update m sid s _ hs
  · intro d
    refine ⟨?_, ?_, ?_⟩ <;>
      simp [SessionStore.get, SessionMap.lookup, SessionMap.update,
        SessionMap.erase, List.find?, List.filter]

/-- Witness for C6 at concrete inputs. -/
theorem C6_witness :
    SessionStore.get 5 [] "s" 10 = (none, []) ∧
    (SessionStore.get 5 [("s", ⟨RVal.vInt 7, 0, 0⟩)] "s" 10).1 = none ∧
    (SessionStore.get 5 [("s", ⟨RVal.vInt 7, 0, 0⟩)] "s" 4).1
      = some (RVal.vInt 7) ∧
    (SessionStore.get 5 [("s", ⟨RVal.vInt 7, 0, 0⟩)] "s" 4).1
      = some (RVal.vInt 7) :=
  ⟨(C6_session_get 5 [] "s" 10).1 rfl,
   ((C6_session_get 5 [("s", ⟨RVal.vInt 7, 0, 0⟩)] "s" 10).2.1
     ⟨RVal.vInt 7, 0, 0⟩ rfl (by norm_num)).1,
   ((C6_session_get 5 [("s", ⟨RVal.vInt 7, 0, 0⟩)] "s" 4).2.2.1
     ⟨RVal.vInt 7, 0, 0⟩ rfl (by norm_num)).1,
   ((C6_session_get 5 [("s", ⟨RVal.vInt 7, 0, 0⟩)] "s" 4).2.2.2
     (RVal.vInt 7)).1⟩

/-- Claim C9: for an id present in the store, `set` returns true,
replaces the data and refreshes `last_accessed` even when the entry's
idle time already exceeds the ttl (expiry is checked only by `get`), so
it resurrects a logically expired session; `destroy` likewise returns
true on a present (possibly expired) entry. -/
theorem C9_session_set_resurrects (ttl : Int) (m : SessionMap)
    (sid : String) (s : Session) (d : RVal) (now : Int)
    (hs : m.lookup sid = some s)
    (hexp : now - s.last_accessed > ttl) (httl : 0 ≤ ttl) :
    (SessionStore.set m sid d now).1 = true ∧
    ((SessionStore.set m sid d now).2).lookup sid =
      some { data := d, created_at := s.created_at,
             last_accessed := now } ∧
    (SessionStore.get ttl (SessionStore.set m sid d now).2 sid now).1
      = some d ∧
    (SessionStore.destroy m sid).1 = true := by
  have hset : (SessionStore.set m sid d now).2
      = m.update sid { s with data := d, last_accessed := now } := by
    simp [SessionStore.set, hs]
  have hlook := SessionMap.lookup_update m sid s
    { s with data := d, last_accessed := now } hs
  refine ⟨?_, ?_, ?_, ?_⟩
  · simp [SessionStore.set, hs]
  · rw [hset]
    exact hlook
  · rw [hset]
    simp only [SessionStore.get, hlook]
    rw [if_neg (by omega : ¬ now - now > ttl)]
  · simp [SessionStore.destroy, hs]

/-- Witness for C9 at concrete inputs. -/
theorem C9_witness :
    (SessionStore.set [("s", ⟨RVal.vInt 7, 0, 0⟩)] "s"
      (RVal.vInt 8) 100).1 = true ∧
    (SessionStore.get 5
      (SessionStore.set [("s", ⟨RVal.vInt 7, 0, 0⟩)] "s"
        (RVal.vInt 8) 100).2 "s" 100).1 = some (RVal.vInt 8) :=
  ⟨(C9_session_set_resurrects 5 [("s", ⟨RVal.vInt 7, 0, 0⟩)] "s"
      ⟨RVal.vInt 7, 0, 0⟩ (RVal.vInt 8) 100 rfl (by norm_num)
      (by norm_num)).1,
   (C9_session_set_resurrects 5 [("s", ⟨RVal.vInt 7, 0, 0⟩)] "s"
      ⟨RVal.vInt 7, 0, 0⟩ (RVal.vInt 8) 100 rfl (by norm_num)
      (by norm_num)).2.2.1⟩

theorem hlookup_cons (p : String × String) (rest : List (String × String))
    (k : String) :
    hlookup (p :: rest) k
      = if p.1 = k then some p.2 else hlookup rest k := by
  by_cases h : p.1 = k
  · simp [hlookup, List.find?, h]
  · simp [hlookup, List.find?, h]

/-- `add_headers` with the `let` inlined, for branch-by-branch
rewriting. -/
theorem add_headers_unfold (c : CORSHandler) (ro : Option String) :
    c.add_headers ro =
      (if c.origins.contains "*" then
        [("Access-Control-Allow-Origin", "*")]
      else if corsEchoes c.origins ro then
        [("Access-Control-Allow-Origin", ro.getD "")]
      else
        match c.origins with
        | [] => []
        | o :: _ => [("Access-Control-Allow-Origin", o)]) ++
      [("Access-Control-Allow-Methods", joinComma c.methods),
       ("Access-Control-Allow-Headers", joinComma c.headers),
       ("Access-Control-Max-Age", toString c.max_age)] ++
      (if c.credentials then
        [("Access-Control-Allow-Credentials", "true")]
      else []) := rfl

/-- Counterexample to claim C8 as stated.  The claim says the origin
header echoes the request origin whenever it is present and in the
allow-set; with allow-set `["https://a.com", ""]` and request origin the
empty string (present and in the allow-set, and no wildcard configured),
the code's truthiness test `request_origin and request_origin in
self.origins` skips the echo branch and falls back to the first
configured origin instead. -/
theorem C8_counterexample :
    ("" ∈ (["https://a.com", ""] : List String)) ∧
    ¬ (["https://a.com", ""] : List String).contains "*" = true ∧
    hlookup
      (CORSHandler.add_headers
        ⟨["https://a.com", ""], ["GET"], ["Content-Type"], false, 86400⟩
        (some ""))
      "Access-Control-Allow-Origin" = some "https://a.com" ∧
    ¬ hlookup
      (CORSHandler.add_headers
        ⟨["https://a.com", ""], ["GET"], ["Content-Type"], false, 86400⟩
        (some ""))
      "Access-Control-Allow-Origin" = some "" := by
  refine ⟨by simp, by simp, ?_, ?_⟩ <;>
  · rw [add_headers_unfold]
    simp [corsEchoes, hlookup_cons]

/-- Claim C8 (amended): the synthesizer sets the allow-origin header to
`*` when the allow-set contains the wildcard, else echoes the request
origin when it is present, non-empty and in the allow-set, else falls
back to the first configured origin when at least one origin is
configured (and emits no allow-origin header when the allow-set is
empty); it always emits allow-methods, allow-headers and max-age, and
emits allow-credentials iff credentials are enabled; with allow-set
`["https://a.com"]` and request origin `https://b.com` the response
echoes `https://a.com`, never `*`. -/
theorem C8_cors_headers (c : CORSHandler) (ro : Option String) :
    (c.origins.contains "*" = true →
      hlookup (c.add_headers ro) "Access-Control-Allow-Origin"
        = some "*") ∧
    (c.origins.contains "*" = false → ∀ o, ro = some o → o ≠ "" →
      c.origins.contains o = true →
      hlookup (c.add_headers ro) "Access-Control-Allow-Origin"
        = some o) ∧
    (c.origins.contains "*" = false →
      corsEchoes c.origins ro = false → ∀ o₀ rest,
      c.origins = o₀ :: rest →
      hlookup (c.add_headers ro) "Access-Control-Allow-Origin"
        = some o₀) ∧
    (c.origins = [] →
      hlookup (c.add_headers ro) "Access-Control-Allow-Origin"
        = none) ∧
    hlookup (c.add_headers ro) "Access-Control-Allow-Methods"
      = some (joinComma c.methods) ∧
    hlookup (c.add_headers ro) "Access-Control-Allow-Headers"
      = some (joinComma c.headers) ∧
    hlookup (c.add_headers ro) "Access-Control-Max-Age"
      = some (toString c.max_age) ∧
    (hlookup (c.add_headers ro) "Access-Control-Allow-Credentials"
      = some "true" ↔ c.credentials = true) ∧
    (∀ ms hs ma cr,
      hlookup
        (CORSHandler.add_headers ⟨["https://a.com"], ms, hs, cr, ma⟩
          (some "https://b.com"))
        "Access-Control-Allow-Origin" = some "https://a.com") := by
  have bool_ne : ∀ {b : Bool}, b = false → ¬ b = true := by
    intro b h hh
    rw [h] at hh
    exact Bool.false_ne_true hh
  have expand : c.add_headers ro =
      (if c.origins.contains "*" then
        [("Access-Control-Allow-Origin", "*")]
      else if corsEchoes c.origins ro then
        [("Access-Control-Allow-Origin", ro.getD "")]
      else
        match c.origins with
        | [] => []
        | o :: _ => [("Access-Control-Allow-Origin", o)]) ++
      [("Access-Control-Allow-Methods", joinComma c.methods),
       ("Access-Control-Allow-Headers", joinComma c.headers),
       ("Access-Control-Max-Age", toString c.max_age)] ++
      (if c.credentials then
        [("Access-Control-Allow-Credentials", "true")]
      else []) := add_headers_unfold c ro
  refine ⟨?_, ?_, ?_, ?_, ?_, ?_, ?_, ?_, ?_⟩
  · intro hw
    rw [expand, if_pos hw]
    simp [hlookup_cons]
  · intro hw o hro hne hin
    subst hro
    have hecho : corsEchoes c.origins (some o) = true := by
      simp [corsEchoes, hne]
      simpa using hin
    rw [expand, if_neg (bool_ne hw), if_pos hecho]
    simp [hlookup_cons]
  · intro hw hecho o₀ rest hor
    rw [expand, if_neg (bool_ne hw), if_neg (bool_ne hecho), hor]
    simp [hlookup_cons]
  · intro hor
    have hw : ¬ c.origins.contains "*" = true := by
      rw [hor]
      simp
    have hecho : ¬ corsEchoes c.origins ro = true := by
      cases ro with
      | none => simp [corsEchoes]
      | some o =>
        rw [hor]
        simp [corsEchoes]
    rw [expand, if_neg hw, if_neg hecho, hor]
    cases hc : c.credentials <;>
      simp [hlookup_cons, hlookup, List.find?]
  · by_cases hw : c.origins.contains "*" = true
    · rw [expand, if_pos hw]
      simp [hlookup_cons]
    · rw [expand, if_neg hw]
      by_cases hecho : corsEchoes c.origins ro = true
      · rw [if_pos hecho]
        simp [hlookup_cons]
      · rw [if_neg hecho]
        cases c.origins with
        | nil => simp [hlookup_cons]
        | cons o₀ rest => simp [hlookup_cons]
  · by_cases hw : c.origins.contains "*" = true
    · rw [expand, if_pos hw]
      simp [hlookup_cons]
    · rw [expand, if_neg hw]
      by_cases hecho : corsEchoes c.origins ro = true
      · rw [if_pos hecho]
        simp [hlookup_cons]
      · rw [if_neg hecho]
        cases c.origins with
        | nil => simp [hlookup_cons]
        | cons o₀ rest => simp [hlookup_cons]
  · by_cases hw : c.origins.contains "*" = true
    · rw [expand, if_pos hw]
      simp [hlookup_cons]
    · rw [expand, if_neg hw]
      by_cases hecho : corsEchoes c.origins ro = true
      · rw [if_pos hecho]
        simp [hlookup_cons]
      · rw [if_neg hecho]
        cases c.origins with
        | nil => simp [hlookup_cons]
        | cons o₀ rest => simp [hlookup_cons]
  · by_cases hw : c.origins.contains "*" = true
    · rw [expand, if_pos hw]
      cases hc : c.credentials <;>
        simp [hlookup_cons, hc, hlookup, List.find?]
    · rw [expand, if_neg hw]
      by_cases hecho : corsEchoes c.origins ro = true
      · rw [if_pos hecho]
        cases hc : c.credentials <;>
          simp [hlookup_cons, hc, hlookup, List.find?]
      · rw [if_neg hecho]
        cases c.origins with
        | nil =>
          cases hc : c.credentials <;>
            simp [hlookup_cons, hc, hlookup, List.find?]
        | cons o₀ rest =>
          cases hc : c.credentials <;>
            simp [hlookup_cons, hc, hlookup, List.find?]
  · intro ms hs ma cr
    rw [add_headers_unfold]
    rw [if_neg (by simp), if_neg (by simp [corsEchoes])]
    simp [hlookup_cons]

/-- Witness for (the amended) C8 at concrete inputs. -/
theorem C8_witness :
    hlookup
      (CORSHandler.add_headers
        ⟨["https://a.com"], ["GET"], ["Content-Type"], false, 86400⟩
        (some "https://b.com"))
      "Access-Control-Allow-Origin" = some "https://a.com" ∧
    hlookup
      (CORSHandler.add_headers
        ⟨["*"], ["GET"], ["Content-Type"], false, 86400⟩ none)
      "Access-Control-Allow-Origin" = some "*" :=
  ⟨(C8_cors_headers
      ⟨["https://a.com"], ["GET"], ["Content-Type"], false, 86400⟩
      (some "https://b.com")).2.2.2.2.2.2.2.2 ["GET"] ["Content-Type"]
      86400 false,
   (C8_cors_headers
      ⟨["*"], ["GET"], ["Content-Type"], false, 86400⟩ none).1
      (by decide)⟩

/- ======================================================================
   Claims C2, C3 (route matching and 404 dispatch)
   ====================================================================== -/

/-- `_match_route` skips a prefix of routes none of which both accepts
the method and matches the path. -/
theorem match_route_skip (pre rs : List Route) (method path : String)
    (hpre : ∀ r ∈ pre, r.methods.contains method = true →
      matchPat r.pattern path.data = none) :
    match_route (pre ++ rs) method path = match_route rs method path := by
  induction pre with
  | nil => rfl
  | cons r pre' ih =>
    have hr := hpre r (by simp)
    have hrest : ∀ r' ∈ pre', r'.methods.contains method = true →
        matchPat r'.pattern path.data = none := by
      intro r' hmem
      exact hpre r' (by simp [hmem])
    by_cases hm : r.methods.contains method = true
    · simp only [List.cons_append, match_route, hm, if_pos, hr hm]
      exact ih hrest
    · simp only [Bool.not_eq_true] at hm
      simp only [List.cons_append, match_route, hm]
      exact ih hrest

/-- `_match_route` returns `none` when no registered route both accepts
the method and matches the path. -/
theorem match_route_none (routes : List Route) (method path : String)
    (h : ∀ r ∈ routes, r.methods.contains method = true →
      matchPat r.pattern path.data = none) :
    match_route routes method path = none := by
  have := match_route_skip routes [] method path h
  simpa using this

/-- Claim C2: when the request's path pattern-matches some registered
route whose method set excludes the request method, and no route both
accepts the method and matches the path (and no static mount intercepts
the path), the dispatcher responds 404 Not Found — byte-for-byte the
same response as for a wholly unmatched path (empty route table); no
405 is produced. -/
theorem C2_method_mismatch_is_404 (statics : List (String × String))
    (routes : List Route) (middleware : List (Except String RVal))
    (method path : String)
    (hstatics : ∀ p ∈ statics, path.startsWith p.1 = false)
    (_hnear : ∃ r ∈ routes, (matchPat r.pattern path.data).isSome ∧
      r.methods.contains method = false)
    (hnone : ∀ r ∈ routes, r.methods.contains method = true →
      matchPat r.pattern path.data = none) :
    handle_request statics routes middleware method path
      = Sent.errorSent 404 (RVal.vDict [("error", RVal.vStr "Not found")])
    ∧ handle_request statics routes middleware method path
      = handle_request statics [] middleware method path := by
  have hfind : statics.find? (fun p => path.startsWith p.1) = none := by
    rw [List.find?_eq_none]
    intro p hp
    simp [hstatics p hp]
  constructor
  · simp only [handle_request, hfind, match_route_none routes method path
      hnone]
  · simp only [handle_request, hfind, match_route_none routes method path
      hnone, match_route]

/-- Manual unconditional unfolding equation for `path_to_regex_aux`,
used to evaluate the compiler on concrete templates. -/
theorem path_to_regex_aux_cons (c : Char) (rest : List Char) :
    path_to_regex_aux (c :: rest) =
      if c = ':' then
        (if (rest.takeWhile isWordChar).length > 0 then
          PatItem.group (String.mk (rest.takeWhile isWordChar)) ::
            path_to_regex_aux (rest.dropWhile isWordChar)
        else PatItem.lit ':' :: path_to_regex_aux rest)
      else if c = '.' then PatItem.anyChar :: path_to_regex_aux rest
      else PatItem.lit c :: path_to_regex_aux rest := by
  by_cases h1 : c = ':'
  · subst h1
    rw [if_pos rfl]
    exact path_to_regex_aux.eq_2 rest
  · by_cases h2 : c = '.'
    · subst h2
      rw [if_neg h1, if_pos rfl]
      exact path_to_regex_aux.eq_3 rest
    · rw [if_neg h1, if_neg h2]
      exact path_to_regex_aux.eq_4 c rest (fun h => h1 h) (fun h => h2 h)

/-- Witness for C2: a route table with template `/a/:id` registered for
POST only, and a GET request to `/a/7`. -/
theorem C2_witness :
    handle_request []
      (RiftHTTPServer.route [] "/a/:id" ["POST"] (Except.ok RVal.vNone))
      [] "GET" "/a/7"
      = Sent.errorSent 404
          (RVal.vDict [("error", RVal.vStr "Not found")]) := by
  have hmatch : matchPat (path_to_regex "/a/:id") "/a/7".data
      = some [("id", some "7")] := by
    simp +decide [path_to_regex, applyQuant, path_to_regex_aux_cons,
      path_to_regex_aux, matchPat, tryGroup, isWordChar,
      List.takeWhile_cons, List.dropWhile_cons]
  refine (C2_method_mismatch_is_404 []
    (RiftHTTPServer.route [] "/a/:id" ["POST"] (Except.ok RVal.vNone))
    [] "GET" "/a/7"
    (by intro p hp; simp at hp)
    ⟨{ pattern := path_to_regex "/a/:id", methods := ["POST"].map pyUpper,
       handler := Except.ok RVal.vNone, original_path := "/a/:id" },
     by simp [RiftHTTPServer.route],
     by rw [hmatch]; rfl,
     by decide⟩
    ?_).1
  intro r hr
  simp only [RiftHTTPServer.route, List.nil_append,
    List.mem_singleton] at hr
  subst hr
  intro hcontains
  exact absurd hcontains (by decide)

/-- Claim C3: route matching scans in registration order and returns the
handler and named-segment map of the first route whose method set
contains the method and whose pattern fully matches the path; in
particular, with `/a/:id` registered before `/a/static`, a GET request
to `/a/static` dispatches to the `/a/:id` route with the parameter `id`
bound to `static`. -/
theorem C3_first_match_wins (pre : List Route) (r : Route)
    (post : List Route) (method path : String)
    (gs : List (String × Option String))
    (hpre : ∀ r' ∈ pre, r'.methods.contains method = true →
      matchPat r'.pattern path.data = none)
    (hm : r.methods.contains method = true)
    (hmatch : matchPat r.pattern path.data = some gs) :
    match_route (pre ++ r :: post) method path = some (r.handler, gs) ∧
    ∀ h1 h2 : Except String RVal,
      match_route
        (RiftHTTPServer.route
          (RiftHTTPServer.route [] "/a/:id" ["GET"] h1)
          "/a/static" ["GET"] h2)
        "GET" "/a/static" = some (h1, [("id", some "static")]) := by
  constructor
  · rw [match_route_skip pre (r :: post) method path hpre]
    simp only [match_route, hm, if_pos, hmatch]
  · intro h1 h2
    have e : matchPat (path_to_regex "/a/:id") "/a/static".data
        = some [("id", some "static")] := by
      simp +decide [path_to_regex, applyQuant, path_to_regex_aux_cons,
        path_to_regex_aux, matchPat, tryGroup, isWordChar,
        List.takeWhile_cons, List.dropWhile_cons]
    have routesEq : RiftHTTPServer.route
        (RiftHTTPServer.route [] "/a/:id" ["GET"] h1)
        "/a/static" ["GET"] h2
        = [{ pattern := path_to_regex "/a/:id",
             methods := ["GET"].map pyUpper, handler := h1,
             original_path := "/a/:id" },
           { pattern := path_to_regex "/a/static",
             methods := ["GET"].map pyUpper, handler := h2,
             original_path := "/a/static" }] := rfl
    rw [routesEq]
    simp only [match_route]
    rw [if_pos (by decide : (["GET"].map pyUpper).contains "GET" = true)]
    rw [e]

/-- Witness for C3 at concrete inputs. -/
theorem C3_witness :
    match_route
      (RiftHTTPServer.route
        (RiftHTTPServer.route [] "/a/:id" ["GET"]
          (Except.ok (RVal.vInt 1)))
        "/a/static" ["GET"] (Except.ok (RVal.vInt 2)))
      "GET" "/a/static"
      = some (Except.ok (RVal.vInt 1), [("id", some "static")]) :=
  (C3_first_match_wins []
    { pattern := path_to_regex "/a/:id",
      methods := ["GET"].map pyUpper,
      handler := Except.ok (RVal.vInt 1),
      original_path := "/a/:id" }
    [] "GET" "/a/static" [("id", some "static")]
    (by intro r hr; simp at hr)
    (by decide)
    (by
      simp +decide [path_to_regex, applyQuant, path_to_regex_aux_cons,
        path_to_regex_aux, matchPat, tryGroup, isWordChar,
        List.takeWhile_cons, List.dropWhile_cons])).2
    (Except.ok (RVal.vInt 1)) (Except.ok (RVal.vInt 2))

theorem takeWhile_length_le (p : Char → Bool) (l : List Char) :
    (l.takeWhile p).length ≤ l.length := by
  induction l with
  | nil => simp
  | cons x xs ih =>
    by_cases h : p x
    · simp [List.takeWhile_cons, h]
      omega
    · simp [List.takeWhile_cons, h]

theorem take_sat (p : Char → Bool) :
    ∀ (xs : List Char) (k : Nat), k ≤ (xs.takeWhile p).length →
      ∀ c ∈ xs.take k, p c = true := by
  intro xs
  induction xs with
  | nil =>
    intro k hk c hc
    simp at hc
  | cons x xs ih =>
    intro k hk c hc
    cases k with
    | zero => simp at hc
    | succ k' =>
      by_cases hp : p x
      · rw [List.takeWhile_cons, if_pos hp] at hk
        simp only [List.length_cons, Nat.succ_le_succ_iff] at hk
        simp only [List.take_succ_cons, List.mem_cons] at hc
        rcases hc with rfl | hc
        · exact hp
        · exact ih k' hk c hc
      · rw [List.takeWhile_cons, if_neg hp] at hk
        simp at hk

theorem mem_of_mem_dropWhile (p : Char → Bool) (l : List Char)
    (a : Char) (h : a ∈ l.dropWhile p) : a ∈ l := by
  induction l with
  | nil => simp [List.dropWhile] at h
  | cons x xs ih =>
    by_cases hp : p x
    · rw [List.dropWhile_cons, if_pos hp] at h
      exact List.mem_cons_of_mem x (ih h)
    · rw [List.dropWhile_cons, if_neg hp] at h
      exact h

/-- Stage one of the compiler never produces a quantified element, and
on a `?`-free template it never produces a literal `?` either. -/
theorem path_to_regex_aux_noQuant :
    ∀ (n : Nat) (l : List Char), l.length ≤ n → ¬ '?' ∈ l →
      noQuantItems (path_to_regex_aux l) = true := by
  intro n
  induction n with
  | zero =>
    intro l hl _
    have : l = [] := List.eq_nil_of_length_eq_zero (by omega)
    subst this
    rw [path_to_regex_aux.eq_1]
    rfl
  | succ n ihn =>
    intro l hl hq
    cases l with
    | nil =>
      rw [path_to_regex_aux.eq_1]
      rfl
    | cons c rest =>
      rw [path_to_regex_aux_cons]
      by_cases hc1 : c = ':'
      · rw [if_pos hc1]
        by_cases hg : (rest.takeWhile isWordChar).length > 0
        · rw [if_pos hg]
          have hrec := ihn (rest.dropWhile isWordChar)
            (by
              have := dropWhile_length_le isWordChar rest
              simp only [List.length_cons] at hl
              omega)
            (fun hmem => hq (List.mem_cons_of_mem c
              (mem_of_mem_dropWhile isWordChar rest '?' hmem)))
          simp only [noQuantItems, List.all_cons, quantFree,
            Bool.and_eq_true] at hrec ⊢
          exact ⟨trivial, hrec⟩
        · rw [if_neg hg]
          have hrec := ihn rest
            (by simp only [List.length_cons] at hl; omega)
            (fun hmem => hq (List.mem_cons_of_mem c hmem))
          simp only [noQuantItems, List.all_cons, quantFree,
            Bool.and_eq_true] at hrec ⊢
          exact ⟨by decide, hrec⟩
      · by_cases hc2 : c = '.'
        · rw [if_neg hc1, if_pos hc2]
          have hrec := ihn rest
            (by simp only [List.length_cons] at hl; omega)
            (fun hmem => hq (List.mem_cons_of_mem c hmem))
          simp only [noQuantItems, List.all_cons, quantFree,
            Bool.and_eq_true] at hrec ⊢
          exact ⟨trivial, hrec⟩
        · rw [if_neg hc1, if_neg hc2]
          have hrec := ihn rest
            (by simp only [List.length_cons] at hl; omega)
            (fun hmem => hq (List.mem_cons_of_mem c hmem))
          have hcq : ¬ c = '?' := fun he =>
            hq (he ▸ List.mem_cons_self c rest)
          simp only [noQuantItems, List.all_cons, quantFree,
            Bool.and_eq_true] at hrec ⊢
          exact ⟨by simp [hcq], hrec⟩

/-- On a quantifier-free stage-one pattern `applyQuant` is the
identity. -/
theorem applyQuant_eq_self : ∀ (ps : List PatItem),
    noQuantItems ps = true → applyQuant ps = ps := by
  intro ps
  induction ps with
  | nil =>
    intro _
    rfl
  | cons p rest ih =>
    intro h
    have hrest : noQuantItems rest = true := by
      simp only [noQuantItems, List.all_cons, Bool.and_eq_true] at h
      exact h.2
    cases rest with
    | nil => rfl
    | cons q rest2 =>
      cases q with
      | lit c =>
        have hc : ¬ c = '?' := by
          simp only [noQuantItems, List.all_cons, quantFree,
            Bool.and_eq_true, decide_eq_true_eq] at h
          exact h.2.1
        simp only [applyQuant]
        rw [if_neg (by simp [hc])]
        rw [ih hrest]
      | anyChar =>
        simp only [applyQuant]
        rw [ih hrest]
      | group nm =>
        simp only [applyQuant]
        rw [ih hrest]
      | opt pp =>
        simp only [applyQuant]
        rw [ih hrest]

theorem noOpt_of_noQuant (ps : List PatItem)
    (h : noQuantItems ps = true) : noOpt ps = true := by
  simp only [noQuantItems, List.all_eq_true] at h
  simp only [noOpt, List.all_eq_true]
  intro p hp
  have hqf := h p hp
  cases p with
  | lit c => rfl
  | anyChar => rfl
  | group nm => rfl
  | opt q => simp [quantFree] at hqf

/-- On a pattern with no optional element, a successful match binds
every named parameter to a non-empty string containing no `/`. -/
theorem matchPat_good : ∀ (ps : List PatItem) (xs : List Char)
    (gs : List (String × Option String)), noOpt ps = true →
    matchPat ps xs = some gs →
    ∀ nv ∈ gs, ∃ v, nv.2 = some v ∧ v ≠ "" ∧
      ∀ c ∈ v.data, ¬ c = '/' := by
  intro ps
  induction ps with
  | nil =>
    intro xs gs _ h nv hnv
    simp only [matchPat] at h
    by_cases he : xs = [] ∨ xs = ['\n']
    · rw [if_pos he] at h
      cases h
      simp at hnv
    · rw [if_neg he] at h
      cases h
  | cons item ps ih =>
    cases item with
    | lit c =>
      intro xs gs hno h
      have hno' : noOpt ps = true := by
        simp only [noOpt, List.all_cons, Bool.and_eq_true] at hno
        exact hno.2
      cases xs with
      | nil => simp [matchPat] at h
      | cons x xs' =>
        simp only [matchPat] at h
        by_cases hx : x = c
        · rw [if_pos hx] at h
          exact ih xs' gs hno' h
        · rw [if_neg hx] at h
          cases h
    | anyChar =>
      intro xs gs hno h
      have hno' : noOpt ps = true := by
        simp only [noOpt, List.all_cons, Bool.and_eq_true] at hno
        exact hno.2
      cases xs with
      | nil => simp [matchPat] at h
      | cons x xs' =>
        simp only [matchPat] at h
        by_cases hx : x = '\n'
        · rw [if_pos hx] at h
          cases h
        · rw [if_neg hx] at h
          exact ih xs' gs hno' h
    | group n =>
      intro xs gs hno h
      have hno' : noOpt ps = true := by
        simp only [noOpt, List.all_cons, Bool.and_eq_true] at hno
        exact hno.2
      simp only [matchPat] at h
      have Q : ∀ k, k ≤ (xs.takeWhile (fun c => ¬ c = '/')).length →
          ∀ gs, tryGroup n false ps xs k = some gs →
          ∀ nv ∈ gs, ∃ v, nv.2 = some v ∧ v ≠ "" ∧
            ∀ c ∈ v.data, ¬ c = '/' := by
        intro k
        induction k with
        | zero =>
          intro _ gs hg
          simp [tryGroup] at hg
        | succ k' ihk =>
          intro hk gs hg nv hnv
          simp only [tryGroup] at hg
          cases hm : matchPat ps (xs.drop (k' + 1)) with
          | some gs' =>
            rw [hm] at hg
            simp only [Option.some.injEq] at hg
            subst hg
            rcases List.mem_cons.mp hnv with rfl | htail
            · refine ⟨String.mk (xs.take (k' + 1)), rfl, ?_, ?_⟩
              · intro hempty
                have hdata : List.take (k' + 1) xs = [] :=
                  congrArg String.data hempty
                have hlen := congrArg List.length hdata
                rw [List.length_take] at hlen
                have hle := takeWhile_length_le
                  (fun c => ¬ c = '/') xs
                simp only [List.length_nil] at hlen
                omega
              · intro c hc
                have := take_sat (fun c => ¬ c = '/') xs (k' + 1) hk c hc
                simpa using this
            · exact ih (xs.drop (k' + 1)) gs' hno' hm nv htail
          | none =>
            rw [hm] at hg
            exact ihk (by omega) gs hg nv hnv
      exact Q _ le_rfl gs h
    | opt q =>
      intro xs gs hno h
      exfalso
      simp [noOpt, List.all_cons, optFree] at hno

/-- Counterexample to claim C10 as stated: `_path_to_regex` passes
regex metacharacters into the compiled pattern unescaped, so the
template `/a/:id?` compiles to `^/a/(?P<id>[^/]+)?$`, in which the
named group is optional.  The path `/a/` matches it, and `groupdict()`
maps `id` to Python `None` (modelled `none`) — the extracted parameter
is not a non-empty string, and the match succeeds on a path with no
segment for `:id` at all. -/
theorem C10_counterexample :
    matchPat (path_to_regex "/a/:id?") "/a/".data
      = some [("id", (none : Option String))] ∧
    ∀ v : String,
      ¬ ((("id", (none : Option String)) : String × Option String).2
        = some v) := by
  constructor
  · simp +decide [path_to_regex, applyQuant, path_to_regex_aux_cons,
      path_to_regex_aux, matchPat, tryGroup, isWordChar,
      List.takeWhile_cons, List.dropWhile_cons]
  · intro v h
    cases h

/-- Claim C10 (amended): each `:name` segment of a template compiles to
the named sub-pattern `[^/]+`, but every other template character
reaches the regex engine unescaped; for templates containing no regex
metacharacter, each extracted named parameter of a matched request is a
non-empty string containing no `/` — in particular `/a/:id` matches
neither `/a/` nor `/a/b/c`.  (A metacharacter breaks the property:
`/a/:id?` matches `/a/` with the parameter `id` mapped to None.) -/
theorem C10_params_nonempty_no_slash :
    (path_to_regex "/a/:id"
      = [PatItem.lit '/', PatItem.lit 'a', PatItem.lit '/',
         PatItem.group "id"]) ∧
    (∀ (template path : String) (gs : List (String × Option String)),
      template.data.all (fun c => !(isRegexMeta c)) = true →
      matchPat (path_to_regex template) path.data = some gs →
      ∀ nv ∈ gs, ∃ v, nv.2 = some v ∧ v ≠ "" ∧
        ∀ c ∈ v.data, ¬ c = '/') ∧
    matchPat (path_to_regex "/a/:id") "/a/".data = none ∧
    matchPat (path_to_regex "/a/:id") "/a/b/c".data = none := by
  refine ⟨?_, ?_, ?_, ?_⟩
  · simp +decide [path_to_regex, applyQuant, path_to_regex_aux_cons,
      path_to_regex_aux, isWordChar, List.takeWhile_cons,
      List.dropWhile_cons]
  · intro template path gs hmeta hmatch
    have hq : ¬ '?' ∈ template.data := by
      intro hmem
      have := List.all_eq_true.mp hmeta _ hmem
      simp [isRegexMeta] at this
    have h1 : noQuantItems (path_to_regex_aux template.data) = true :=
      path_to_regex_aux_noQuant template.data.length template.data
        le_rfl hq
    have h2 : path_to_regex template = path_to_regex_aux template.data
        := by
      rw [path_to_regex, applyQuant_eq_self _ h1]
    have h3 : noOpt (path_to_regex template) = true := by
      rw [h2]
      exact noOpt_of_noQuant _ h1
    exact matchPat_good (path_to_regex template) path.data gs h3 hmatch
  · simp +decide [path_to_regex, applyQuant, path_to_regex_aux_cons,
      path_to_regex_aux, matchPat, tryGroup, isWordChar,
      List.takeWhile_cons, List.dropWhile_cons]
  · simp +decide [path_to_regex, applyQuant, path_to_regex_aux_cons,
      path_to_regex_aux, matchPat, tryGroup, isWordChar,
      List.takeWhile_cons, List.dropWhile_cons]

/-- Witness for (the amended) C10 at a concretely matched request. -/
theorem C10_witness :
    ∃ v, ((("id", some "7") : String × Option String).2 = some v ∧
      v ≠ "" ∧ ∀ c ∈ v.data, ¬ c = '/') := by
  have hmatch : matchPat (path_to_regex "/a/:id") "/a/7".data
      = some [("id", some "7")] := by
    simp +decide [path_to_regex, applyQuant, path_to_regex_aux_cons,
      path_to_regex_aux, matchPat, tryGroup, isWordChar,
      List.takeWhile_cons, List.dropWhile_cons]
  exact C10_params_nonempty_no_slash.2.1 "/a/:id" "/a/7"
    [("id", some "7")] (by decide) hmatch ("id", some "7") (by simp)

/-- The middleware loop ignores a prefix of fall-through outcomes. -/
theorem runMiddleware_skip (pre rest : List (Except String RVal))
    (hpre : ∀ x ∈ pre, fallsThrough x = true) :
    runMiddleware (pre ++ rest) = runMiddleware rest := by
  induction pre with
  | nil => rfl
  | cons x pre' ih =>
    have hx := hpre x (by simp)
    have hrest : ∀ y ∈ pre', fallsThrough y = true := by
      intro y hy
      exact hpre y (by simp [hy])
    cases x with
    | error msg => simp [fallsThrough] at hx
    | ok v =>
      cases v with
      | vDict f =>
        simp only [fallsThrough, Bool.not_eq_true'] at hx
        simp only [List.cons_append, runMiddleware, hx]
        simp only [Bool.false_eq_true, if_false]
        exact ih hrest
      | vNone =>
        simp only [List.cons_append, runMiddleware]
        exact ih hrest
      | vBool b =>
        simp only [List.cons_append, runMiddleware]
        exact ih hrest
      | vInt n =>
        simp only [List.cons_append, runMiddleware]
        exact ih hrest
      | vNumF l =>
        simp only [List.cons_append, runMiddleware]
        exact ih hrest
      | vStr s =>
        simp only [List.cons_append, runMiddleware]
        exact ih hrest
      | vList xs =>
        simp only [List.cons_append, runMiddleware]
        exact ih hrest
      | vBytes bs =>
        simp only [List.cons_append, runMiddleware]
        exact ih hrest

/-- A chain of only fall-through outcomes completes without producing a
response. -/
theorem runMiddleware_none (mws : List (Except String RVal))
    (h : ∀ x ∈ mws, fallsThrough x = true) :
    runMiddleware mws = none := by
  have := runMiddleware_skip mws [] h
  simpa using this

/-- Claim C7: the dispatcher runs middleware in registration order; the
first middleware returning a dict carrying `status` short-circuits (its
value is sent as the response, independent of any later middleware and
of the handler); a middleware raising aborts with a 500 whose body is
the failure message under the key `error`; if all middleware fall
through, a raising handler likewise produces that 500. -/
theorem C7_middleware_short_circuit_and_500
    (statics : List (String × String)) (routes : List Route)
    (method path : String) (handler : Except String RVal)
    (params : List (String × Option String))
    (hstatics : ∀ p ∈ statics, path.startsWith p.1 = false)
    (hroute : match_route routes method path = some (handler, params)) :
    (∀ pre post fields, (∀ x ∈ pre, fallsThrough x = true) →
      hasKey fields "status" = true →
      handle_request statics routes
        (pre ++ Except.ok (RVal.vDict fields) :: post) method path
        = Sent.response (RVal.vDict fields)) ∧
    (∀ pre post msg, (∀ x ∈ pre, fallsThrough x = true) →
      handle_request statics routes
        (pre ++ Except.error msg :: post) method path
        = Sent.errorSent 500 (RVal.vDict [("error", RVal.vStr msg)])) ∧
    (∀ mws msg, (∀ x ∈ mws, fallsThrough x = true) →
      handler = Except.error msg →
      handle_request statics routes mws method path
        = Sent.errorSent 500 (RVal.vDict [("error", RVal.vStr msg)])) ∧
    (∀ mws v, (∀ x ∈ mws, fallsThrough x = true) →
      handler = Except.ok v →
      handle_request statics routes mws method path
        = Sent.response v) := by
  have hfind : statics.find? (fun p => path.startsWith p.1) = none := by
    rw [List.find?_eq_none]
    intro p hp
    simp [hstatics p hp]
  refine ⟨?_, ?_, ?_, ?_⟩
  · intro pre post fields hpre hstatus
    simp only [handle_request, hfind, hroute,
      runMiddleware_skip pre _ hpre, runMiddleware, hstatus, if_pos]
  · intro pre post msg hpre
    simp only [handle_request, hfind, hroute,
      runMiddleware_skip pre _ hpre, runMiddleware]
  · intro mws msg hmws hh
    simp only [handle_request, hfind, hroute,
      runMiddleware_none mws hmws, hh]
  · intro mws v hmws hh
    simp only [handle_request, hfind, hroute,
      runMiddleware_none mws hmws, hh]

/-- Witness for C7 at concrete inputs: one fall-through middleware, then
a short-circuiting one; and separately a raising middleware. -/
theorem C7_witness :
    handle_request []
      (RiftHTTPServer.route [] "/x" ["GET"] (Except.ok RVal.vNone))
      [Except.ok RVal.vNone,
       Except.ok (RVal.vDict [("status", RVal.vInt 418)]),
       Except.error "unreached"]
      "GET" "/x"
      = Sent.response (RVal.vDict [("status", RVal.vInt 418)]) ∧
    handle_request []
      (RiftHTTPServer.route [] "/x" ["GET"] (Except.ok RVal.vNone))
      [Except.error "boom"] "GET" "/x"
      = Sent.errorSent 500 (RVal.vDict [("error", RVal.vStr "boom")]) := by
  have hroute : match_route
      (RiftHTTPServer.route [] "/x" ["GET"] (Except.ok RVal.vNone))
      "GET" "/x" = some (Except.ok RVal.vNone, []) := by
    have e : matchPat (path_to_regex "/x") "/x".data = some [] := by
      simp +decide [path_to_regex, applyQuant, path_to_regex_aux_cons,
        path_to_regex_aux, matchPat, tryGroup, isWordChar,
        List.takeWhile_cons, List.dropWhile_cons]
    simp only [RiftHTTPServer.route, List.nil_append, match_route]
    rw [if_pos (by decide : (["GET"].map pyUpper).contains "GET" = true)]
    rw [e]
  have h := C7_middleware_short_circuit_and_500 []
    (RiftHTTPServer.route [] "/x" ["GET"] (Except.ok RVal.vNone))
    "GET" "/x" (Except.ok RVal.vNone) []
    (by intro p hp; simp at hp) hroute
  constructor
  · have := h.1 [Except.ok RVal.vNone]
      [Except.error "unreached"] [("status", RVal.vInt 418)]
      (by intro x hx; simp at hx; subst hx; rfl) (by decide)
    simpa using this
  · have := h.2.1 [] [] "boom" (by intro x hx; simp at hx)
    simpa using this

/- ======================================================================
   Claim C4 helper lemmas (byte and UTF-8 round trips)
   ====================================================================== -/

theorem toBytesBE_length (k n : Nat) : (toBytesBE k n).length = k := by
  induction k generalizing n with
  | zero => rfl
  | succ k ih => simp [toBytesBE, ih]

theorem fromBytesBE_toBytesBE (k n : Nat) (h : n < 256 ^ k) :
    fromBytesBE (toBytesBE k n) = n := by
  induction k generalizing n with
  | zero =>
    simp [Nat.pow_zero] at h
    simp [toBytesBE, fromBytesBE, h]
  | succ k ih =>
    have hdiv : n / 256 < 256 ^ k := by
      rw [Nat.div_lt_iff_lt_mul (by norm_num : 0 < 256)]
      calc n < 256 ^ (k + 1) := h
        _ = 256 ^ k * 256 := by ring
    have := ih (n / 256) hdiv
    simp only [toBytesBE, fromBytesBE, List.foldl_append, List.foldl_cons,
      List.foldl_nil] at this ⊢
    rw [this]
    omega

theorem maskBytesGo_length (mask : List Nat) (i : Nat) (bs : List Nat) :
    (maskBytesGo mask i bs).length = bs.length := by
  induction bs generalizing i with
  | nil => rfl
  | cons b bs ih => simp [maskBytesGo, ih]

theorem unmaskLoop_maskBytesGo (mask : List Nat) (h4 : mask.length = 4) :
    ∀ (bs : List Nat) (i : Nat),
      unmaskLoop mask i bs.length (maskBytesGo mask i bs) = some bs := by
  intro bs
  induction bs with
  | nil => intro i; rfl
  | cons b bs ih =>
    intro i
    have hm : i % 4 < mask.length := by
      rw [h4]
      exact Nat.mod_lt i (by norm_num)
    have hget := List.get?_eq_get hm
    have hgd : mask.getD (i % 4) 0 = mask.get ⟨i % 4, hm⟩ := by
      rw [List.getD_eq_getElem?_getD, List.getElem?_eq_getElem hm]
      rfl
    simp only [maskBytesGo, List.length_cons, unmaskLoop, hget, hgd]
    rw [ih (i + 1)]
    simp only [Option.map_some']
    rw [Nat.xor_assoc, Nat.xor_self, Nat.xor_zero]

theorem utf8DecodeOne_encodeChar (c : Nat) (hv : validScalar c)
    (rest : List Nat) :
    utf8DecodeOne (utf8EncodeChar c ++ rest) = some (c, rest) := by
  rcases Nat.lt_or_ge c 0x80 with h1 | h1
  · rw [utf8EncodeChar, if_pos h1]
    simp only [List.cons_append, List.nil_append, utf8DecodeOne]
    rw [if_pos h1]
  · rcases Nat.lt_or_ge c 0x800 with h2 | h2
    · rw [utf8EncodeChar, if_neg (by omega), if_pos h2]
      simp only [List.cons_append, List.nil_append, utf8DecodeOne]
      rw [if_neg (by omega), if_neg (by omega), if_pos (by omega)]
      simp only [utf8Two]
      rw [if_pos (by
        simp only [isCont, decide_eq_true_eq]
        omega)]
      congr 2
      omega
    · rcases Nat.lt_or_ge c 0x10000 with h3 | h3
      · have hsur : ¬ (0xD800 ≤ c ∧ c < 0xE000) := by
          rcases hv with h | h <;> omega
        rw [utf8EncodeChar, if_neg (by omega), if_neg (by omega),
          if_pos h3]
        simp only [List.cons_append, List.nil_append, utf8DecodeOne]
        rw [if_neg (by omega), if_neg (by omega), if_neg (by omega),
          if_pos (by omega)]
        simp only [utf8Three]
        rw [if_pos (by
          simp only [isCont, Bool.and_eq_true, decide_eq_true_eq]
          omega)]
        have hval : (0xE0 + c / 4096 - 0xE0) * 4096 +
            (0x80 + c / 64 % 64 - 0x80) * 64 + (0x80 + c % 64 - 0x80)
            = c := by omega
        rw [if_pos (by rw [hval]; exact ⟨h2, hsur⟩)]
        rw [hval]
      · have h4 : c < 0x110000 := by
          rcases hv with h | h <;> omega
        rw [utf8EncodeChar, if_neg (by omega), if_neg (by omega),
          if_neg (by omega)]
        simp only [List.cons_append, List.nil_append, utf8DecodeOne]
        rw [if_neg (by omega), if_neg (by omega), if_neg (by omega),
          if_neg (by omega), if_pos (by omega)]
        simp only [utf8Four]
        rw [if_pos (by
          simp only [isCont, Bool.and_eq_true, decide_eq_true_eq]
          omega)]
        have hval : (0xF0 + c / 262144 - 0xF0) * 262144 +
            (0x80 + c / 4096 % 64 - 0x80) * 4096 +
            (0x80 + c / 64 % 64 - 0x80) * 64 + (0x80 + c % 64 - 0x80)
            = c := by omega
        rw [if_pos (by rw [hval]; exact ⟨h3, h4⟩)]
        rw [hval]

theorem utf8Decode_step (l : List Nat) (c : Nat) (r : List Nat)
    (h1 : utf8DecodeOne l = some (c, r)) :
    utf8Decode l = (utf8Decode r).map (fun cs => c :: cs) := by
  cases l with
  | nil => simp [utf8DecodeOne] at h1
  | cons b rest =>
    rw [utf8Decode]
    split
    · rename_i cr heq
      rw [h1] at heq
      cases heq
      rfl
    · rename_i heq
      rw [h1] at heq
      cases heq

theorem utf8Decode_encode_list (cs : List Nat)
    (hv : ∀ c ∈ cs, validScalar c) :
    utf8Decode ((cs.map utf8EncodeChar).flatten) = some cs := by
  induction cs with
  | nil =>
    rw [List.map_nil, List.flatten_nil, utf8Decode]
  | cons c cs' ih =>
    simp only [List.map_cons, List.flatten_cons]
    rw [utf8Decode_step _ c ((cs'.map utf8EncodeChar).flatten)
      (utf8DecodeOne_encodeChar c (hv c (by simp)) _)]
    rw [ih (fun x hx => hv x (by simp [hx]))]
    rfl

theorem char_toNat_validScalar (ch : Char) : validScalar ch.toNat := by
  have h := ch.valid
  rw [UInt32.isValidChar, Nat.isValidChar] at h
  have he : ch.toNat = ch.val.toNat := rfl
  rcases h with h | h
  · left
    omega
  · right
    constructor <;> omega

theorem utf8DecodeStr_encode (s : String) :
    utf8DecodeStr (utf8Encode s) = some s := by
  have henc : utf8Encode s
      = ((s.data.map Char.toNat).map utf8EncodeChar).flatten := by
    rw [utf8Encode, List.map_map]
    rfl
  have hv : ∀ c ∈ s.data.map Char.toNat, validScalar c := by
    intro c hc
    simp only [List.mem_map] at hc
    obtain ⟨ch, _, rfl⟩ := hc
    exact char_toNat_validScalar ch
  rw [utf8DecodeStr, henc, utf8Decode_encode_list _ hv]
  simp only [Option.map_some']
  congr 1
  rw [List.map_map]
  have hmap : s.data.map (Char.ofNat ∘ Char.toNat) = s.data.map id := by
    apply List.map_congr_left
    intro ch _
    simp only [Function.comp_apply, id]
    exact Char.ofNat_toNat ch
  rw [hmap, List.map_id]

theorem take_maskBytesGo (mask : List Nat) (data : List Nat) :
    (maskBytesGo mask 0 data).take data.length
      = maskBytesGo mask 0 data := by
  rw [← maskBytesGo_length mask 0 data]
  exact List.take_length _

theorem wsBody_masked_text (mask data : List Nat)
    (h4 : mask.length = 4) :
    wsBody 1 true data.length (mask ++ maskBytesGo mask 0 data)
      = utf8DecodeStr data := by
  simp only [wsBody, if_true]
  rw [List.take_left' h4, List.drop_left' h4, take_maskBytesGo,
    unmaskLoop_maskBytesGo mask h4 data 0]

theorem receive_frame_core (mask data : List Nat) (h4 : mask.length = 4)
    (hlen : data.length < 2 ^ 64) :
    WebSocketConnection.receive
      (0x81 :: (wsLenHeader 0x80 data.length ++ mask ++
        maskBytesGo mask 0 data))
      = utf8DecodeStr data := by
  rcases Nat.lt_or_ge data.length 126 with hA | hBC
  · have hws : wsLenHeader 0x80 data.length = [0x80 + data.length] := by
      rw [wsLenHeader, if_pos (by omega)]
    rw [hws]
    simp only [List.cons_append, List.nil_append, List.append_assoc,
      WebSocketConnection.receive]
    have e1 : (0x80 + data.length) % 128 = data.length := by omega
    rw [e1]
    have e2 : wsParseLen data.length (mask ++ maskBytesGo mask 0 data)
        = (data.length, mask ++ maskBytesGo mask 0 data) := by
      rw [wsParseLen, if_neg (by omega), if_neg (by omega)]
    rw [e2]
    have e3 : decide (128 ≤ 0x80 + data.length) = true := by
      simp
    rw [e3]
    have e4 : (0x81 : Nat) % 16 = 1 := by norm_num
    rw [e4]
    exact wsBody_masked_text mask data h4
  · rcases Nat.lt_or_ge data.length 65536 with hB | hC
    · have hws : wsLenHeader 0x80 data.length
          = 254 :: toBytesBE 2 data.length := by
        rw [wsLenHeader, if_neg (by omega), if_pos (by omega)]
      rw [hws]
      simp only [List.cons_append, List.append_assoc,
        WebSocketConnection.receive]
      have e1 : (254 : Nat) % 128 = 126 := by norm_num
      rw [e1]
      have e2 : wsParseLen 126
          (toBytesBE 2 data.length ++ (mask ++ maskBytesGo mask 0 data))
          = (data.length, mask ++ maskBytesGo mask 0 data) := by
        rw [wsParseLen, if_pos rfl,
          List.take_left' (toBytesBE_length 2 data.length),
          List.drop_left' (toBytesBE_length 2 data.length),
          fromBytesBE_toBytesBE 2 data.length (by norm_num; omega)]
      rw [e2]
      have e3 : decide (128 ≤ (254 : Nat)) = true := by norm_num
      rw [e3]
      have e4 : (0x81 : Nat) % 16 = 1 := by norm_num
      rw [e4]
      exact wsBody_masked_text mask data h4
    · have hws : wsLenHeader 0x80 data.length
          = 255 :: toBytesBE 8 data.length := by
        rw [wsLenHeader, if_neg (by omega), if_neg (by omega)]
      rw [hws]
      simp only [List.cons_append, List.append_assoc,
        WebSocketConnection.receive]
      have e1 : (255 : Nat) % 128 = 127 := by norm_num
      rw [e1]
      have e2 : wsParseLen 127
          (toBytesBE 8 data.length ++ (mask ++ maskBytesGo mask 0 data))
          = (data.length, mask ++ maskBytesGo mask 0 data) := by
        rw [wsParseLen, if_neg (by omega), if_pos rfl,
          List.take_left' (toBytesBE_length 8 data.length),
          List.drop_left' (toBytesBE_length 8 data.length),
          fromBytesBE_toBytesBE 8 data.length (by norm_num; omega)]
      rw [e2]
      have e3 : decide (128 ≤ (255 : Nat)) = true := by norm_num
      rw [e3]
      have e4 : (0x81 : Nat) % 16 = 1 := by norm_num
      rw [e4]
      exact wsBody_masked_text mask data h4

/-- Claim C4: encoding a text message as a (server, unmasked) text frame
and decoding the corresponding masked client text frame carrying the
same payload (any 4-byte mask key) reproduces the original string, for
every string whose UTF-8 payload fits the 64-bit length field — in
particular payload lengths 10, 200 and 70000 exercise the 7-bit, 16-bit
and 64-bit length encodings. -/
theorem C4_websocket_roundtrip (s : String) (mask : List Nat)
    (h4 : mask.length = 4) (hbytes : ∀ b ∈ mask, b < 256)
    (hlen : (utf8Encode s).length < 2 ^ 64) :
    (WebSocketConnection.send s
      = 0x81 :: (wsLenHeader 0 (utf8Encode s).length ++ utf8Encode s)) ∧
    WebSocketConnection.receive (clientTextFrame mask s) = some s ∧
    ((utf8Encode s).length = 10 →
      wsLenHeader 0 (utf8Encode s).length = [10]) ∧
    ((utf8Encode s).length = 200 →
      wsLenHeader 0 (utf8Encode s).length = [126, 0, 200]) ∧
    ((utf8Encode s).length = 70000 →
      wsLenHeader 0 (utf8Encode s).length
        = [127, 0, 0, 0, 0, 0, 1, 0x11, 0x70]) := by
  refine ⟨rfl, ?_, ?_, ?_, ?_⟩
  · rw [clientTextFrame]
    rw [receive_frame_core mask (utf8Encode s) h4 hlen]
    exact utf8DecodeStr_encode s
  · intro h
    rw [h]
    decide
  · intro h
    rw [h]
    decide
  · intro h
    rw [h]
    decide

/-- Witness for C4 at a concrete message and mask key. -/
theorem C4_witness :
    WebSocketConnection.receive (clientTextFrame [1, 2, 3, 4] "hi")
      = some "hi" :=
  (C4_websocket_roundtrip "hi" [1, 2, 3, 4] rfl (by decide)
    (by decide)).2.1

theorem utf8Decode_ff : utf8Decode [0xFF] = none := by
  rw [utf8Decode]
  split
  · rename_i cr heq
    rw [(by decide : utf8DecodeOne [0xFF]
      = (none : Option (Nat × List Nat)))] at heq
    cases heq
  · rfl

theorem utf8Replace_ff : utf8Replace [0xFF] = [0xFFFD] := by
  rw [utf8Replace]
  split
  · rename_i cr heq
    rw [(by decide : utf8DecodeOne [0xFF]
      = (none : Option (Nat × List Nat)))] at heq
    cases heq
  · rw [(by decide : utf8FailSkip [0xFF] = 1)]
    rw [(by rfl : ([0xFF] : List Nat).drop 1 = [])]
    rw [utf8Replace]

/-- Claim C1: the body decoder is NOT total — this theorem documents the
divergence.  A url-encoded body of invalid UTF-8 raises an uncaught
UnicodeDecodeError (`body.decode('utf-8')` at http.py line 405 has no
try), and so does a JSON body of invalid UTF-8 (line 400's strict
decode sits inside a `try` that catches only JSONDecodeError); both are
modelled as `none`.  The degradation paths the claim describes do hold
where reachable: malformed-but-decodable JSON yields an empty dict and
the fallback branch replaces invalid bytes. -/
theorem C1_parse_body_exceptions :
    parse_body "application/x-www-form-urlencoded" [0xFF] = none ∧
    parse_body "application/json" [0xFF] = none ∧
    parse_body "application/json" (utf8Encode "not json")
      = some (RVal.vDict []) ∧
    parse_body "text/plain" [0xFF]
      = some (RVal.vStr (String.mk [Char.ofNat 0xFFFD])) := by
  refine ⟨?_, ?_, ?_, ?_⟩
  · rw [parse_body]
    rw [if_neg (by decide), if_neg (by decide), if_pos (by decide)]
    rw [utf8DecodeStr, utf8Decode_ff]
    rfl
  · rw [parse_body]
    rw [if_neg (by decide), if_pos (by decide)]
    rw [utf8DecodeStr, utf8Decode_ff]
    rfl
  · rw [parse_body]
    rw [if_neg (by decide), if_pos (by decide)]
    rw [utf8DecodeStr_encode "not json"]
    rfl
  · rw [parse_body]
    rw [if_neg (by decide), if_neg (by decide), if_neg (by decide),
      if_neg (by decide)]
    rw [utf8ReplaceStr, utf8Replace_ff]
    rfl

